import Mathlib

/-!
Verification of the onnxruntime core against its natural-language
specification.  Every definition below is a shallow embedding, translated
from the C++ sources of the repository (file and function names follow
the source); definitions whose C++ body is not part of the repository
snapshot are marked `Modelled from the spec:` in their doc comment.
Machine integers are modelled as `Int` (the embedded comparisons never
overflow in the claims considered) and tensor data as Lean lists.
-/

/-! ### Status model (core/common/status.h)

The source represents operation outcomes as a `Status` carrying a numeric
code and a message; `Status::OK()` is code `OK` with an empty message. -/

/-- Error codes used by the embedded fragment of the code base
(`common::StatusCode`). -/
inductive StatusCode where
  | ok
  | fail
  | invalidArgument
  | modelLoaded
  | runtimeException
  | notImplemented
  deriving DecidableEq, Repr

/-- `common::Status`: a code together with an error message. -/
structure Status where
  code : StatusCode
  msg : String
  deriving DecidableEq, Repr

/-- `Status::OK()`. -/
def Status.OK : Status := ⟨StatusCode.ok, ""⟩

/-- `Status::IsOK()`: the source treats a status as OK exactly when its
code is the OK code. -/
def Status.IsOK (s : Status) : Bool := s.code = StatusCode.ok

/-! ### Slice elimination (core/graph/slice_elimination.cc)

`EliminateSlice::SatisfyCondition` inspects a node through the graph
editor: whether it is single-input single-output, and its `starts`,
`ends` and `axes` integer-list attributes.  Those accessor results are
modelled as fields of `SliceNodeView`; the decision logic below them is
translated line by line from the source. -/

/-- The observations `EliminateSlice::SatisfyCondition` makes of a node:
`IsSingleInSingleOutNode` and `GetRepeatedNodeAttributeValues` for the
three attributes (`none` models the accessor returning `false`). -/
structure SliceNodeView where
  isSingleInSingleOut : Bool
  starts : Option (List Int)
  ends : Option (List Int)
  axes : Option (List Int)
  deriving DecidableEq, Repr

/-- `INT64_MAX`. -/
def int64Max : Int := 9223372036854775807

/-- Loop body of the final check in `EliminateSlice::SatisfyCondition`:
`starts[i] > 0 || starts[i] < 0 || (ends[i] > 0 && ends[i] < INT64_MAX)`
rejects the node. -/
def sliceBoundRejects (starts ends : List Int) (i : Nat) : Bool :=
  starts.getD i 0 > 0 || starts.getD i 0 < 0 ||
    (ends.getD i 0 > 0 && ends.getD i 0 < int64Max)

/-- `EliminateSlice::SatisfyCondition`, translated from
core/graph/slice_elimination.cc lines 20-52. -/
def EliminateSlice.SatisfyCondition (n : SliceNodeView) : Bool :=
  if !n.isSingleInSingleOut then false
  else
    match n.starts, n.ends with
    | none, _ => false
    | _, none => false
    | some starts, some ends =>
      if starts.length ≠ ends.length then false
      else
        let axes :=
          match n.axes with
          | none => (List.range starts.length).map Int.ofNat
          | some a => a
        if n.axes.isSome ∧ (axes.length ≠ starts.length ∨ axes.length ≠ ends.length)
        then false
        else decide (∀ i < axes.length, ¬ sliceBoundRejects starts ends i)

/-- The acceptance predicate exactly as the claim states it: single-in
single-out, `starts` and `ends` present with equal lengths (and `axes`,
when present, of that same length), every start equal to `0`, and every
end either `INT64_MAX` or a negative sentinel.  Written from the words of
the spec, to be compared with the source function. -/
def sliceClaimCondition (n : SliceNodeView) : Bool :=
  n.isSingleInSingleOut &&
  match n.starts, n.ends with
  | some starts, some ends =>
    starts.length = ends.length &&
    (match n.axes with
     | some a => a.length = starts.length
     | none => true) &&
    decide (∀ i < starts.length, starts.getD i 0 = 0) &&
    decide (∀ i < ends.length, ends.getD i 0 = int64Max ∨ ends.getD i 0 < 0)
  | _, _ => false

/-- The amended acceptance predicate: as the claim, except that an end
bound of `0` (more generally any non-positive end) is also accepted, as
the source tests `ends[i] > 0 && ends[i] < INT64_MAX`. -/
def sliceAmendedCondition (n : SliceNodeView) : Bool :=
  n.isSingleInSingleOut &&
  match n.starts, n.ends with
  | some starts, some ends =>
    starts.length = ends.length &&
    (match n.axes with
     | some a => a.length = starts.length
     | none => true) &&
    decide (∀ i < starts.length, starts.getD i 0 = 0) &&
    decide (∀ i < ends.length, ends.getD i 0 = int64Max ∨ ends.getD i 0 ≤ 0)
  | _, _ => false

/-! ### EyeLike (core/providers/cpu/tensor/eye_like.cc)

`EyeLike::ComputeImpl` over a 2-D shape: the output is zero-filled, then
when the diagonal offset `k` is in range the Eigen call
`output_mat.diagonal(k).array() = 1` writes ones at positions
`(i + max(-k,0), i + max(k,0))` for `i` below the diagonal length. -/

/-- Flat row-major index of entry `(r, c)` of a matrix with `cols`
columns. -/
def flatIdx (cols r c : Nat) : Nat := r * cols + c

/-- Write the `k`-th diagonal of an `rows × cols` matrix to `1`
(Eigen `diagonal(k)`, length `min(rows, cols - k)` for `k ≥ 0` and
`min(rows + k, cols)` for `k < 0`). -/
def setDiagonal (m : List Int) (rows cols : Nat) (k : Int) : List Int :=
  let rOff : Nat := (-k).toNat
  let cOff : Nat := k.toNat
  let len : Nat := min (rows - rOff) (cols - cOff)
  (List.range len).foldl
    (fun acc i => acc.set (flatIdx cols (i + rOff) (i + cOff)) 1) m

/-- `EyeLike::ComputeImpl`, translated from
core/providers/cpu/tensor/eye_like.cc lines 46-67: reject inputs whose
rank is not 2, zero the output, return early when the diagonal offset is
out of range, otherwise set the diagonal. -/
def EyeLike.ComputeImpl (inputDims : List Int) (k : Int) :
    Status × List Int :=
  if inputDims.length ≠ 2 then
    (⟨StatusCode.invalidArgument, "EyeLike : Input tensor dimension is not 2"⟩, [])
  else
    let rows : Int := inputDims.getD 0 0
    let cols : Int := inputDims.getD 1 0
    let zeroOut : List Int := List.replicate (rows.toNat * cols.toNat) 0
    if (k ≥ 0 ∧ k ≥ cols) ∨ (k < 0 ∧ |k| ≥ rows) then
      (Status.OK, zeroOut)
    else
      (Status.OK, setDiagonal zeroOut rows.toNat cols.toNat k)

/-! ### ReverseSequence (contrib_ops/cpu/reverse_sequence.cc, complete
implementation)

`ReverseSequence::ComputeImpl` works on the flat row-major buffer of the
input.  It first reshapes the dimensions as `[h, B/S, m, S/B, t]` by a
single pass that accumulates the products `h`, `m`, `t` into `s[0..2]`,
then walks the merged batches and copies rows of `width` elements.  Data
values are an arbitrary inhabited type; the uninitialised output buffer
is modelled as a buffer of `default` values, each loop iteration
overwriting the cells the Eigen maps write. -/

/-- State of the reshape loop of `ReverseSequence::ComputeImpl`
(lines 61-75): the partial products `s[0..2]`, the number of axes of
interest met so far, and the merged batch size. -/
structure RSShape where
  s0 : Nat
  s1 : Nat
  s2 : Nat
  meet : Nat
  mergedBatchSize : Nat
  deriving Repr, DecidableEq

/-- Read `s[meet]` (the source indexes a 3-element array; `meet` never
exceeds 2 because exactly two axes are special). -/
def RSShape.getS (st : RSShape) : Nat :=
  match st.meet with
  | 0 => st.s0
  | 1 => st.s1
  | _ => st.s2

/-- Multiply `s[meet]` by `v`. -/
def RSShape.mulS (st : RSShape) (v : Nat) : RSShape :=
  match st.meet with
  | 0 => { st with s0 := st.s0 * v }
  | 1 => { st with s1 := st.s1 * v }
  | _ => { st with s2 := st.s2 * v }

/-- The reshape loop of `ReverseSequence::ComputeImpl`: for each axis,
count the two special axes with `meet` and fold the plain axes into
`s[meet]`. -/
def rsShapeLoop (dims : List Nat) (batchAxis seqAxis : Nat) : RSShape :=
  (List.range dims.length).foldl
    (fun st i =>
      if i = batchAxis then
        { st with mergedBatchSize := st.mergedBatchSize * st.getS,
                  meet := st.meet + 1 }
      else if i = seqAxis then
        { st with meet := st.meet + 1 }
      else
        st.mulS (dims.getD i 0))
    ⟨1, 1, 1, 0, dims.getD batchAxis 0⟩

/-- Copy `width` consecutive cells from the input `x` at `src` into the
output buffer at `dst` (one Eigen row assignment). -/
def copyRow [Inhabited α] (x : List α) (y : List α) (dst src width : Nat) :
    List α :=
  (List.range width).foldl
    (fun y c => y.set (dst + c) (x.getD (src + c) default)) y

/-- Body of the merged-batch loop of `ReverseSequence::ComputeImpl`
(lines 93-123) for one `merged_batch` index. -/
def rsMergedBatchBody [Inhabited α] (x : List α)
    (batchAxis seqAxis batchSize seqSize seqLengthsSize : Nat)
    (seqLengths : List Int)
    (mergedBatchStrides seqStrides preSeqStrides preSeqSize width : Nat)
    (y : List α) (mergedBatch : Nat) : List α :=
  let batch := mergedBatch % batchSize
  let seqLen := (seqLengths.getD (batch % seqLengthsSize) 0).toNat
  let mbPos := mergedBatch * mergedBatchStrides
  (List.range preSeqSize).foldl
    (fun y pre =>
      let preSeqPos := mbPos + pre * preSeqStrides
      if batchAxis < seqAxis then
        -- seq_axis and following data are consecutive: matrix-level reverse
        let y := (List.range seqLen).foldl
          (fun y r =>
            copyRow x y (preSeqPos + r * width)
              (preSeqPos + (seqLen - 1 - r) * width) width) y
        -- the source applies colwise().reverse() to the remaining rows too
        let base := preSeqPos + seqStrides * seqLen
        (List.range (seqSize - seqLen)).foldl
          (fun y t =>
            copyRow x y (base + t * width)
              (base + (seqSize - seqLen - 1 - t) * width) width) y
      else
        let y := (List.range seqLen).foldl
          (fun y s =>
            copyRow x y (preSeqPos + seqStrides * (seqLen - s - 1))
              (preSeqPos + seqStrides * s) width) y
        (List.range (seqSize - seqLen)).foldl
          (fun y t =>
            copyRow x y (preSeqPos + seqStrides * (seqLen + t))
              (preSeqPos + seqStrides * (seqLen + t)) width) y)
    y

/-- `ReverseSequence::ComputeImpl`, translated from the complete
implementation (lines 35-126).  The `ONNXRUNTIME_ENFORCE` checks become
`Except.error`; the flat-list embedding carries the 1-D `seq_lengths`
values directly, so the 0-D/1-D shape enforce is represented by the size
check alone. -/
def ReverseSequence.ComputeImpl [Inhabited α] (dims : List Nat)
    (batchAxis seqAxis : Nat) (seqLengths : List Int) (x : List α) :
    Except String (List α) :=
  let numDims := dims.length
  if ¬ seqAxis < numDims then
    .error "Input number of dims should greater than seq_axis"
  else if ¬ batchAxis < numDims then
    .error "Input number of dims should greater than batch_axis_"
  else
    let batchSize := dims.getD batchAxis 0
    let seqSize := dims.getD seqAxis 0
    let seqLengthsSize := seqLengths.length
    if ¬ (seqLengthsSize = batchSize ∨ seqLengthsSize = 1) then
      .error "Wrong seq_lengths Size"
    else if ¬ seqLengths.all (fun v => 0 < v ∧ v ≤ (seqSize : Int)) then
      .error "Each seq_len should > 0 and <= seq_size"
    else
      let st := rsShapeLoop dims batchAxis seqAxis
      let mergedBatchSize := st.mergedBatchSize
      let width := st.s2
      let preSeqSize := if batchAxis < seqAxis then st.s1 else st.s0
      let seqStrides := if batchAxis < seqAxis then st.s2
                        else st.s2 * mergedBatchSize
      let preSeqStrides := seqStrides * seqSize
      let mergedBatchStrides := if batchAxis < seqAxis then
                                  preSeqStrides * preSeqSize
                                else st.s2
      let y0 : List α := List.replicate x.length default
      .ok ((List.range mergedBatchSize).foldl
        (rsMergedBatchBody x batchAxis seqAxis batchSize seqSize
          seqLengthsSize seqLengths mergedBatchStrides seqStrides
          preSeqStrides preSeqSize width) y0)

/-- Stride (in flat row-major order) of one step along `axis` for a
tensor of shape `dims`. -/
def rowMajorStride (dims : List Nat) (axis : Nat) : Nat :=
  ((dims.drop (axis + 1)).foldl (· * ·) 1)

/-- Coordinate along `axis` of the element at flat index `idx`. -/
def coordAt (dims : List Nat) (axis idx : Nat) : Nat :=
  (idx / rowMajorStride dims axis) % dims.getD axis 1

/-- The output required by the claim (and by the §8 test contract of the
spec): for each batch `b`, the first `seq_lengths[b]` positions along the
sequence axis are the reversal of the corresponding input positions, and
every later position is copied unchanged. -/
def reverseSequenceClaimOutput [Inhabited α] (dims : List Nat)
    (batchAxis seqAxis : Nat) (seqLengths : List Int) (x : List α) :
    List α :=
  let stride := rowMajorStride dims seqAxis
  (List.range x.length).map fun idx =>
    let b := coordAt dims batchAxis idx
    let p := coordAt dims seqAxis idx
    let len := (seqLengths.getD (b % seqLengths.length) 0).toNat
    if p < len then
      x.getD ((idx - p * stride) + (len - 1 - p) * stride) default
    else
      x.getD idx default

/-! ### Graph model (core/graph/graph.h, §3 of the spec)

A node carries a stable index, operator identity, ordered input/output
value definitions (value definitions are identified by their unique
string names) and an attribute bag; a graph carries its nodes, named
constant initializers, the set of graph output names and the table of
value-definition (NodeArg) names.  Edges are derived: an output edge of
`n` exists for every input slot of another node whose definition name is
among the output definitions of `n`. -/

/-- An attribute value (`onnx::AttributeProto`), restricted to the kinds
the embedded rules inspect. -/
inductive AttrValue (α : Type) where
  | aint (i : Int)
  | afloat (v : α)
  deriving DecidableEq, Repr

/-- A constant initializer tensor (`onnx::TensorProto`): registered
name, element data type (onnx codes: 1 = float, 11 = double), shape and
flat data. -/
structure TensorProto (α : Type) where
  name : String
  dataType : Nat
  dims : List Int
  data : List α
  deriving DecidableEq, Repr

/-- A graph node. -/
structure NodeModel (α : Type) where
  index : Nat
  opType : String
  sinceVersion : Nat
  deprecated : Bool
  domain : String
  inputDefs : List String
  outputDefs : List String
  attributes : List (String × AttrValue α)
  deriving DecidableEq, Repr

/-- A graph. -/
structure GraphModel (α : Type) where
  nodes : List (NodeModel α)
  initializers : List (TensorProto α)
  graphOutputs : List String
  nodeArgNames : List String
  deriving DecidableEq, Repr

/-- `Graph::GetNode(index)`. -/
def findNode (g : GraphModel α) (idx : Nat) : Option (NodeModel α) :=
  g.nodes.find? (fun m => m.index = idx)

/-- Attribute lookup (`node.GetAttributes().find(name)`). -/
def attrFind (n : NodeModel α) (name : String) : Option (AttrValue α) :=
  (n.attributes.find? (fun p => p.1 = name)).map (·.2)

/-- `Graph::GetInitializedTensor(name)`. -/
def getInitializedTensor (g : GraphModel α) (name : String) :
    Option (TensorProto α) :=
  g.initializers.find? (fun t => t.name = name)

/-- `Graph::RemoveInitializedTensor(name)`. -/
def removeInitializedTensor (g : GraphModel α) (name : String) :
    GraphModel α :=
  { g with initializers := g.initializers.filter (fun t => t.name ≠ name) }

/-- `Graph::AddInitializedTensor(tensor)`. -/
def addInitializedTensor (g : GraphModel α) (t : TensorProto α) :
    GraphModel α :=
  { g with initializers := g.initializers ++ [t] }

/-- The output edges of `n`: one `(consumer index, consumer input slot)`
pair for every input slot of a graph node whose definition is among the
output definitions of `n`. -/
def outputEdges (g : GraphModel α) (n : NodeModel α) : List (Nat × Nat) :=
  g.nodes.flatMap (fun m =>
    (List.range m.inputDefs.length).filterMap
      (fun i => if m.inputDefs.getD i "" ∈ n.outputDefs
                then some (m.index, i) else none))

/-- `Node::GetOutputEdgesCount()`. -/
def outputEdgesCount (g : GraphModel α) (n : NodeModel α) : Nat :=
  (outputEdges g n).length

/-- `*node.OutputNodesBegin()`: the node at the far end of the first
output edge. -/
def firstOutputNode (g : GraphModel α) (n : NodeModel α) :
    Option (NodeModel α) :=
  match outputEdges g n with
  | [] => none
  | (i, _) :: _ => findNode g i

/-- `Node::GetInputEdgesCount()`: the number of input slots whose
definition is produced by a node of the graph. -/
def inputEdgesCount (g : GraphModel α) (n : NodeModel α) : Nat :=
  (n.inputDefs.filter (fun d => g.nodes.any (fun m => d ∈ m.outputDefs))).length

/-- `Graph::IsNodeOutputsInGraphOutputs(node)`. -/
def isNodeOutputsInGraphOutputs (g : GraphModel α) (n : NodeModel α) : Bool :=
  n.outputDefs.any (fun d => d ∈ g.graphOutputs)

/-- `graph_edit_utils::IsSupportedOptypeVersionAndDomain`, translated
from core/graph/graph_utils.cc lines 12-22.  The default domain argument
is `kOnnxDomainAlias`, i.e. `"ai.onnx"` (declaration in the staged
graph_utils.h), so with the default the gate accepts a node whose domain
is empty or `"ai.onnx"`. -/
def IsSupportedOptypeVersionAndDomain (n : NodeModel α) (opType : String)
    (version : Nat) (domain : String := "ai.onnx") : Bool :=
  ¬ (n.opType ≠ opType ∨ n.deprecated ∨ n.sinceVersion ≠ version ∨
     (n.domain ≠ "" ∧ n.domain ≠ domain))

/-- `Graph::Resolve()`.  Modelled from the spec: Resolve re-derives the
topological order, recomputes in-edge counts and validates the graph; it
does not change nodes, value definitions or initializers, and returns OK
on the well-formed graphs the rewrite rules produce (its body is not
part of the repository snapshot). -/
def GraphModel.Resolve (_g : GraphModel α) : Status := Status.OK

/-- Replace every occurrence of `oldDef` among the input definitions of
a node by `newDef`.  Modelled from the spec: this is the effect of
`Node::ReplaceDefs` with the singleton map `{oldDef → newDef}` on a
consumer, which "replaces every consumer reference to the identity
input" (`Node::ReplaceDefs` itself is not part of the snapshot). -/
def replaceInputDefs (m : NodeModel α) (oldDef newDef : String) :
    NodeModel α :=
  { m with inputDefs := m.inputDefs.map (fun d => if d = oldDef then newDef else d) }

/-! ### Identity elimination (core/graph/identity_elimination.cc) -/

/-- `EliminateIdentity::SatisfyCondition` (lines 30-32): no condition. -/
def EliminateIdentity.SatisfyCondition (_g : GraphModel α)
    (_n : NodeModel α) : Bool :=
  true

/-- `EliminateIdentity::Apply`, translated from
core/graph/identity_elimination.cc lines 8-28: replace, in every node at
the far end of an output edge, the identity output definition by the
identity input definition, set `modified` per consumer, then remove the
node.  Returns the status, the new graph and the `modified` flag. -/
def EliminateIdentity.Apply (g : GraphModel α) (n : NodeModel α)
    (modified : Bool) : Status × GraphModel α × Bool :=
  let idInput := n.inputDefs.getD 0 ""
  let idOutput := n.outputDefs.getD 0 ""
  let consumerIdx : List Nat := (outputEdges g n).map (fun e => e.1)
  let nodes1 := g.nodes.map (fun m =>
    if m.index ∈ consumerIdx then replaceInputDefs m idOutput idInput else m)
  let modified1 := modified || !(outputEdges g n).isEmpty
  (Status.OK,
   { g with nodes := nodes1.filter (fun m => m.index ≠ n.index) },
   modified1)

/-! ### Initializer arithmetic (core/graph/initializer.h)

The `Initializer` wrapper and its in-place arithmetic are declared in
core/graph/initializer.h, which is not part of the repository snapshot;
the operations are modelled from the spec formulas of §4.C
("s = scale / sqrt(var + epsilon)", "(b − mean) * s + B",
"Scale W along the output-channel axis by s"): they act elementwise on
the flat data and keep the name, type and shape of the tensor they
mutate. -/

/-- Modelled from the spec: `Initializer::add(float)` adds the scalar to
every element. -/
def tensorAddScalar [Add α] (t : TensorProto α) (c : α) : TensorProto α :=
  { t with data := t.data.map (fun v => v + c) }

/-- Modelled from the spec: `Initializer::sqrt()` applies the square
root elementwise (the square-root function on the element type is a
parameter of the embedding). -/
def tensorSqrt (sqrt : α → α) (t : TensorProto α) : TensorProto α :=
  { t with data := t.data.map sqrt }

/-- Modelled from the spec: `Initializer::add(other)` elementwise. -/
def tensorAdd [Add α] (t other : TensorProto α) : TensorProto α :=
  { t with data := List.zipWith (fun a b => a + b) t.data other.data }

/-- Modelled from the spec: `Initializer::sub(other)` elementwise. -/
def tensorSub [Sub α] (t other : TensorProto α) : TensorProto α :=
  { t with data := List.zipWith (fun a b => a - b) t.data other.data }

/-- Modelled from the spec: `Initializer::mul(other)` elementwise. -/
def tensorMul [Mul α] (t other : TensorProto α) : TensorProto α :=
  { t with data := List.zipWith (fun a b => a * b) t.data other.data }

/-- Modelled from the spec: `Initializer::div(other)` elementwise. -/
def tensorDiv [Div α] (t other : TensorProto α) : TensorProto α :=
  { t with data := List.zipWith (fun a b => a / b) t.data other.data }

/-- Modelled from the spec: `Initializer::scale_by_axis(other, axis)`
multiplies the element at flat index `i` by `other[i / blockSize]`,
where `blockSize` is the product of the dimensions from `axis` on — for
a convolution weight and `axis = 1` this scales `W` along the
output-channel axis; a one-element `other` scales every element. -/
def scaleByAxis [Mul α] [Inhabited α] (t other : TensorProto α)
    (axis : Nat) : TensorProto α :=
  let blockSize := ((t.dims.drop axis).map Int.toNat).foldl (· * ·) 1
  { t with data := (List.range t.data.length).map (fun i =>
      t.data.getD i default *
        (if other.data.length = 1 then other.data.getD 0 default
         else other.data.getD (i / blockSize) default)) }

/-- Modelled from the spec: `Initializer::IsSupportedDataType` — "fusion
is only supported for float or double data type" (comment in
core/graph/conv_bn_fusion.cc); a missing tensor is not supported. -/
def isSupportedDataType (t : Option (TensorProto α)) : Bool :=
  match t with
  | none => false
  | some t => t.dataType = 1 || t.dataType = 11

/-! ### Conv⊕BatchNormalization fusion (core/graph/conv_bn_fusion.cc)

`ConvBNFusion::Apply` iterates the nodes of the graph, and for every
`Conv` (opset 1) with exactly one output edge whose successor is a
`BatchNormalization` (opset 7) with one input edge and no graph-output
outputs, folds the batch normalization into the convolution weight and
bias, rewires the consumers and collects the BN node for removal; the
collected nodes are removed after the traversal. -/

/-- Loop body of `ConvBNFusion::Apply` (lines 14-174) for the node at
`idx` of the evolving graph.  The state is the graph together with the
`removed_nodes` list.  A failing check reproduces the `continue` of the
source by returning the state unchanged.  (When the `group` attribute is
absent the source dereferences an end iterator — undefined behavior;
that path is modelled as a skip and never relied upon.) -/
def ConvBNFusion.step (sqrt : α → α) [Add α] [Sub α] [Mul α] [Div α]
    [Inhabited α] (st : GraphModel α × List Nat) (idx : Nat) :
    GraphModel α × List Nat :=
  let (g, removed) := st
  match findNode g idx with
  | none => st
  | some node =>
  if ¬ (IsSupportedOptypeVersionAndDomain node "Conv" 1 = true ∧
        outputEdgesCount g node = 1) then st else
  match firstOutputNode g node with
  | none => st
  | some nextNode =>
  if ¬ (IsSupportedOptypeVersionAndDomain nextNode "BatchNormalization" 7 = true ∧
        inputEdgesCount g nextNode = 1 ∧
        isNodeOutputsInGraphOutputs g nextNode = false) then st else
  match attrFind node "group" with
  | none => st
  | some groupAttr =>
  if (match groupAttr with
      | .aint i => decide (i ≠ 1)
      | _ => false) = true then st else
  match attrFind nextNode "epsilon" with
  | none => st
  | some (.aint _) => st
  | some (.afloat epsilon) =>
  let bnInputs := nextNode.inputDefs
  let convInputs := node.inputDefs
  match getInitializedTensor g (bnInputs.getD 1 ""),
        getInitializedTensor g (bnInputs.getD 2 ""),
        getInitializedTensor g (bnInputs.getD 3 ""),
        getInitializedTensor g (bnInputs.getD 4 ""),
        getInitializedTensor g (convInputs.getD 1 "") with
  | some bnScale, some bnB, some bnMean, some bnVar, some convW =>
    if ¬ (isSupportedDataType (some bnScale) = true ∧
          isSupportedDataType (some bnB) = true ∧
          isSupportedDataType (some bnMean) = true ∧
          isSupportedDataType (some bnVar) = true ∧
          isSupportedDataType (some convW) = true ∧
          bnScale.dims.length = 1 ∧ bnB.dims.length = 1 ∧
          bnMean.dims.length = 1 ∧ bnVar.dims.length = 1 ∧
          bnScale.dims.getD 0 0 = bnB.dims.getD 0 0 ∧
          bnB.dims.getD 0 0 = bnMean.dims.getD 0 0 ∧
          bnMean.dims.getD 0 0 = bnVar.dims.getD 0 0 ∧
          bnScale.dataType = bnB.dataType ∧
          bnB.dataType = bnMean.dataType ∧
          bnMean.dataType = bnVar.dataType ∧
          convW.dataType = bnScale.dataType ∧
          convW.dims.length > 2 ∧
          convW.dims.getD 0 0 = bnScale.dims.getD 0 0) then st else
    let fuse : Option (TensorProto α) → GraphModel α × List Nat :=
      fun convB? =>
        let bnVar1 := tensorSqrt sqrt (tensorAddScalar bnVar epsilon)
        let s := tensorDiv bnScale bnVar1
        let convW1 := scaleByAxis convW s 1
        let bnOut := nextNode.outputDefs.getD 0 ""
        let convOut := node.outputDefs.getD 0 ""
        let consumerIdx : List Nat :=
          (outputEdges g nextNode).map (fun e => e.1)
        let rewire : GraphModel α → GraphModel α := fun gr =>
          { gr with nodes := gr.nodes.map (fun m =>
              if m.index ∈ consumerIdx then replaceInputDefs m bnOut convOut
              else m) }
        match convB? with
        | some convB =>
          let newB := tensorAdd (tensorMul (tensorSub convB bnMean) s) bnB
          let g1 := removeInitializedTensor g convW.name
          let g2 := removeInitializedTensor g1 convB.name
          let g3 := addInitializedTensor g2 convW1
          let g4 := addInitializedTensor g3 newB
          (rewire g4, removed ++ [nextNode.index])
        | none =>
          let newB := tensorSub bnB (tensorMul bnMean s)
          if bnB.name ∉ g.nodeArgNames then st else
          let g1 := removeInitializedTensor g convW.name
          let g2 := removeInitializedTensor g1 bnB.name
          let g2a := { g2 with nodes := g2.nodes.map (fun m =>
            if m.index = node.index
            then { m with inputDefs := m.inputDefs ++ [bnB.name] }
            else m) }
          let g3 := addInitializedTensor g2a convW1
          let g4 := addInitializedTensor g3 newB
          (rewire g4, removed ++ [nextNode.index])
    if convInputs.length = 3 then
      match getInitializedTensor g (convInputs.getD 2 "") with
      | none => st
      | some convB =>
        if ¬ (isSupportedDataType (some convB) = true ∧
              convB.dims.length = 1 ∧
              convB.dims.getD 0 0 = bnB.dims.getD 0 0 ∧
              convB.dataType = bnB.dataType) then st else
        fuse (some convB)
    else
      fuse none
  | _, _, _, _, _ => st

/-- `ConvBNFusion::Apply` (lines 12-185): traverse the node list,
collect and apply the per-node rewrites, remove the collected nodes and
resolve. -/
def ConvBNFusion.Apply (sqrt : α → α) [Add α] [Sub α] [Mul α] [Div α]
    [Inhabited α] (g : GraphModel α) : Status × GraphModel α × Bool :=
  let idxs := g.nodes.map (fun n => n.index)
  let (g1, removed) := idxs.foldl (ConvBNFusion.step sqrt) (g, [])
  let g2 := { g1 with nodes := g1.nodes.filter (fun m => m.index ∉ removed) }
  if removed.isEmpty then (Status.OK, g2, false)
  else (g2.Resolve, g2, true)

/-! ### Conv⊕Mul fusion (core/graph/conv_mul_fusion.cc) -/

/-- Loop body of `ConvMulFusion::Apply` (lines 199-318 of the combined
source file) for the node at `idx` of the evolving graph. -/
def ConvMulFusion.step [Add α] [Sub α] [Mul α] [Div α] [Inhabited α]
    (st : GraphModel α × List Nat) (idx : Nat) : GraphModel α × List Nat :=
  let (g, removed) := st
  match findNode g idx with
  | none => st
  | some node =>
  if ¬ (IsSupportedOptypeVersionAndDomain node "Conv" 1 = true ∧
        outputEdgesCount g node = 1) then st else
  match firstOutputNode g node with
  | none => st
  | some nextNode =>
  if ¬ (IsSupportedOptypeVersionAndDomain nextNode "Mul" 7 = true ∧
        inputEdgesCount g nextNode = 1 ∧
        isNodeOutputsInGraphOutputs g nextNode = false) then st else
  let convInputs := node.inputDefs
  let mulInputs := nextNode.inputDefs
  match getInitializedTensor g (convInputs.getD 1 ""),
        getInitializedTensor g (mulInputs.getD 1 "") with
  | some convW, some mulB =>
    if ¬ (isSupportedDataType (some convW) = true ∧
          isSupportedDataType (some mulB) = true ∧
          convW.dataType = mulB.dataType ∧
          convW.dims.length ≥ 4 ∧
          (mulB.dims.length = 0 ∨
           (mulB.dims.length = convW.dims.length - 1 ∧
            convW.dims.getD 0 0 = mulB.dims.getD 0 0))) then st else
    -- the dimensions of mul_B other than the first must equal 1
    if mulB.dims.length ≠ 0 ∧
       ¬ (∀ i, 1 ≤ i → i < mulB.dims.length → mulB.dims.getD i 0 = 1)
    then st else
    let fuse : Option (TensorProto α) → GraphModel α × List Nat :=
      fun convB? =>
        let convW1 := scaleByAxis convW mulB 1
        let mulOut := nextNode.outputDefs.getD 0 ""
        let convOut := node.outputDefs.getD 0 ""
        let consumerIdx : List Nat :=
          (outputEdges g nextNode).map (fun e => e.1)
        let rewire : GraphModel α → GraphModel α := fun gr =>
          { gr with nodes := gr.nodes.map (fun m =>
              if m.index ∈ consumerIdx then replaceInputDefs m mulOut convOut
              else m) }
        let g1 := removeInitializedTensor g (convInputs.getD 1 "")
        let g2 := addInitializedTensor g1 convW1
        let g3 :=
          match convB? with
          | some convB =>
            let convB1 := if mulB.dims.length ≠ 0 then tensorMul convB mulB
                          else scaleByAxis convB mulB 0
            addInitializedTensor
              (removeInitializedTensor g2 (convInputs.getD 2 "")) convB1
          | none => g2
        (rewire g3, removed ++ [nextNode.index])
    if convInputs.length = 3 then
      match getInitializedTensor g (convInputs.getD 2 "") with
      | none => st
      | some convB =>
        if ¬ (isSupportedDataType (some convB) = true ∧
              convB.dataType = mulB.dataType ∧
              convB.dims.length = 1 ∧
              (mulB.dims.length ≠ 0 →
               convB.dims.getD 0 0 = mulB.dims.getD 0 0)) then st else
        fuse (some convB)
    else
      fuse none
  | _, _ => st

/-- `ConvMulFusion::Apply`: traversal, removal of collected nodes,
resolve. -/
def ConvMulFusion.Apply [Add α] [Sub α] [Mul α] [Div α] [Inhabited α]
    (g : GraphModel α) : Status × GraphModel α × Bool :=
  let idxs := g.nodes.map (fun n => n.index)
  let (g1, removed) := idxs.foldl ConvMulFusion.step (g, [])
  let g2 := { g1 with nodes := g1.nodes.filter (fun m => m.index ∉ removed) }
  if removed.isEmpty then (Status.OK, g2, false)
  else (g2.Resolve, g2, true)

/-! ### Session orchestrator (core/session/inference_session.cc)

The validation fragments of `InferenceSession::Impl` are translated
below.  Feeds (`NameMLValMap`, name → value) are modelled as an
association list from input name to the element type of the fed value
(the only observation the validations make of a value); the caller fetch
vector is modelled as `none` for a null pointer and `some size`
otherwise. -/

/-- The per-session data the validations read. -/
structure SessionCore where
  isInited : Bool
  requiredModelInputNames : List String
  modelInputNames : List String
  modelOutputNames : List String
  inputDefList : List (String × Nat)
  deriving DecidableEq, Repr

/-- Feeds: input name paired with the element type of the fed value. -/
def Feeds := List (String × Nat)

/-- Message built for missing required inputs (lines 427-439): the
comma-separated offending names. -/
def missingInputsMsg (missing : List String) : String :=
  "Missing required inputs: " ++ String.intercalate "," missing

/-- Message built for unknown feed names (lines 442-460): each
offending name preceded by a space, then the valid names. -/
def invalidFeedNamesMsg (invalid valid : List String) : String :=
  "Invalid Feed Input Names:" ++ String.join (invalid.map (fun n => " " ++ n)) ++
    ". Valid input names are: " ++ String.join (valid.map (fun n => n ++ " "))

/-- `InferenceSession::Impl::ValidateInputNames`, translated from
inference_session.cc lines 424-464.  (The C++ map iteration order is
unspecified; the embedding uses list order.) -/
def InferenceSession.ValidateInputNames (s : SessionCore) (feeds : Feeds) :
    Status :=
  let missing := s.requiredModelInputNames.filter
    (fun r => ¬ feeds.any (fun p => p.1 = r))
  if missing ≠ [] then
    ⟨StatusCode.invalidArgument, missingInputsMsg missing⟩
  else
    let invalid := (feeds.map Prod.fst).filter
      (fun f => f ∉ s.modelInputNames)
    if invalid ≠ [] then
      ⟨StatusCode.invalidArgument, invalidFeedNamesMsg invalid s.modelInputNames⟩
    else Status.OK

/-- `InferenceSession::Impl::CheckTypes` (lines 385-393); the embedded
message omits the platform `typeid` names. -/
def InferenceSession.CheckTypes (actual expected : Nat) : Status :=
  if actual = expected then Status.OK
  else ⟨StatusCode.invalidArgument, "Unexpected input data type."⟩

/-- Body of `InferenceSession::Impl::ValidateInputTypes`
(lines 395-422): walk the input definitions, skipping unnamed or unfed
ones, and return the first type mismatch. -/
def validateInputTypesAux (feeds : Feeds) :
    List (String × Nat) → Status
  | [] => Status.OK
  | (argName, expected) :: rest =>
    match feeds.lookup argName with
    | none => validateInputTypesAux feeds rest
    | some actual =>
      if argName = "" then validateInputTypesAux feeds rest
      else
        let r := InferenceSession.CheckTypes actual expected
        if r.IsOK then validateInputTypesAux feeds rest else r

/-- `InferenceSession::Impl::ValidateInputTypes`. -/
def InferenceSession.ValidateInputTypes (s : SessionCore) (feeds : Feeds) :
    Status :=
  validateInputTypesAux feeds s.inputDefList

/-- `InferenceSession::Impl::ValidateInputs` (lines 466-471). -/
def InferenceSession.ValidateInputs (s : SessionCore) (feeds : Feeds) :
    Status :=
  let r := InferenceSession.ValidateInputNames s feeds
  if ¬ r.IsOK then r else InferenceSession.ValidateInputTypes s feeds

/-- Message built for unknown output names (lines 502-511). -/
def invalidOutputNamesMsg (invalid valid : List String) : String :=
  "Invalid Output Names:" ++ String.join (invalid.map (fun n => " " ++ n)) ++
    " Valid output names are: " ++ String.join (valid.map (fun n => n ++ " "))

/-- `InferenceSession::Impl::ValidateOutputs`, translated from
inference_session.cc lines 473-517. -/
def InferenceSession.ValidateOutputs (s : SessionCore)
    (outputNames : List String) (fetchesSize : Option Nat) : Status :=
  match fetchesSize with
  | none =>
    ⟨StatusCode.invalidArgument, "Output vector pointer is NULL"⟩
  | some sz =>
    if outputNames = [] then
      ⟨StatusCode.invalidArgument, "At least one output should be requested."⟩
    else if sz ≠ 0 ∧ outputNames.length ≠ sz then
      ⟨StatusCode.invalidArgument, "Output vector incorrectly sized"⟩
    else
      let invalid := outputNames.filter (fun n => n ∉ s.modelOutputNames)
      if invalid ≠ [] then
        ⟨StatusCode.invalidArgument,
         invalidOutputNamesMsg invalid s.modelOutputNames⟩
      else Status.OK

/-- `ONNXRUNTIME_CHECK_AND_SET_RETVAL(expr)`.  Modelled from the spec:
the macro (defined in a header not in the snapshot) evaluates its
expression only while `retval` is still OK, realising the "all Validate*
checks fail fast before any execution" policy of §7. -/
def checkAndSetRetval (retval : Status) (expr : Unit → Status) : Status :=
  if retval.IsOK then expr () else retval

/-- `InferenceSession::Impl::Run`, translated from inference_session.cc
lines 723-794.  The external collaborators between validation and
execution (logger creation, `OnRunStart`, cross-device input copies,
output/provider matching) are status-OK effects outside the embedded
state; the executor invocation is the `execute` parameter.  The returned
Bool records whether `Execute` was invoked, i.e. whether any node of the
graph could have run. -/
def InferenceSession.Run (s : SessionCore) (feeds : Feeds)
    (outputNames : List String) (fetchesSize : Option Nat)
    (execute : Unit → Status) : Status × Bool :=
  let r0 := if s.isInited then Status.OK
            else ⟨StatusCode.fail, "Session not initialized."⟩
  let r1 := checkAndSetRetval r0
    (fun _ => InferenceSession.ValidateInputs s feeds)
  let r2 := checkAndSetRetval r1
    (fun _ => InferenceSession.ValidateOutputs s outputNames fetchesSize)
  let executed := r2.IsOK
  let r3 := checkAndSetRetval r2 execute
  (r3, executed)

/-- The session state a `Load` overload touches: the loaded-model flag
and the model slot; `rest` stands for every other piece of session
state, carried through unchanged. -/
structure SessionLoadState where
  isModelLoaded : Bool
  model : Option Nat
  rest : Nat
  deriving DecidableEq, Repr

/-- The common body of the four `InferenceSession::Impl::Load` overloads
(inference_session.cc lines 119-230): every overload first checks
`is_model_loaded_` under the session mutex and returns a MODEL_LOADED
status without touching any state; otherwise it runs the
overload-specific `Model::Load` (the `loadModel` parameter), stores the
model, runs `DoPostLoadProcessing` (the `postLoad` parameter) and only
then marks the model loaded. -/
def InferenceSession.Load (s : SessionLoadState)
    (loadModel : Unit → Except Status Nat)
    (postLoad : Nat → SessionLoadState → Except Status SessionLoadState) :
    Status × SessionLoadState :=
  if s.isModelLoaded then
    (⟨StatusCode.modelLoaded, "This session already contains a loaded model."⟩, s)
  else
    match loadModel () with
    | .error e => (e, s)
    | .ok m =>
      let s1 := { s with model := some m }
      match postLoad m s1 with
      | .error e => (e, s1)
      | .ok s2 => (Status.OK, { s2 with isModelLoaded := true })

/-! ### Graph transformer manager (core/graph/graph_transformer_mgr.h)

`GraphTransformerManager` stores a step cap and a transformer list; its
`ApplyAll` member is declared in the header (combined source file lines
341-372) but its body is not part of the repository snapshot. -/

/-- One pass of the whole pipeline: run every registered transformer in
order, collecting whether any reported a modification.  Modelled from
the spec (§4.B): a transformer maps a graph to a graph plus a modified
flag. -/
def runPipelinePass (transformers : List (γ → γ × Bool)) (g : γ) :
    γ × Bool :=
  transformers.foldl
    (fun acc t =>
      let r := t acc.1
      (r.1, acc.2 || r.2))
    (g, false)

/-- The fixed-point loop of `ApplyAll`, fuelled by the remaining steps.
Modelled from the spec: "repeat the whole pipeline until no transformer
reports modification OR the step cap is reached".  Returns the final
graph and the number of passes performed. -/
def applyAllLoop (transformers : List (γ → γ × Bool)) :
    Nat → γ → γ × Nat
  | 0, g => (g, 0)
  | n + 1, g =>
    let r := runPipelinePass transformers g
    if r.2 then
      let rec' := applyAllLoop transformers n r.1
      (rec'.1, rec'.2 + 1)
    else (r.1, 1)

/-- `GraphTransformerManager::ApplyAll`.  Modelled from the spec: apply
the registered transformers on the graph up to the configured number of
steps, stopping as soon as a whole pass reports no modification. -/
def GraphTransformerManager.ApplyAll (steps : Nat)
    (transformers : List (γ → γ × Bool)) (g : γ) : γ × Nat :=
  applyAllLoop transformers steps g

/-! ### The graph produced by one Conv⊕BN fusion

The claim describes the effect of `ConvBNFusion::Apply` on a match: with
`s = scale / sqrt(var + epsilon)` (elementwise), the Conv weight is
scaled along the output-channel axis by `s` (`scaleByAxis _ s 1`), the
Conv bias becomes `(b − mean) * s + B` when a bias `b` was present and
`B − mean * s` otherwise (registered under the BN `B` name and appended
to the Conv inputs), every consumer of the BN output is rewired to the
Conv output, and the BN node is removed. -/

/-- The bias-side precondition of the fusion, following the source: a
Conv with three inputs must have a supported bias initializer matching
the BN `B`; a Conv without bias requires the BN `B` NodeArg to exist so
it can be installed as the new bias. -/
@[reducible]
def convBNBiasPrecond (g : GraphModel α) (node : NodeModel α)
    (bnB : TensorProto α) : Option (TensorProto α) → Prop
  | some convB => node.inputDefs.length = 3 ∧
      getInitializedTensor g (node.inputDefs.getD 2 "") = some convB ∧
      (isSupportedDataType (some convB) = true ∧
       convB.dims.length = 1 ∧
       convB.dims.getD 0 0 = bnB.dims.getD 0 0 ∧
       convB.dataType = bnB.dataType)
  | none => node.inputDefs.length ≠ 3 ∧ bnB.name ∈ g.nodeArgNames

/-- The graph after the fusion computation and rewiring, before the
deferred node removal. -/
def convBNFusedPre (sqrt : α → α) [Add α] [Sub α] [Mul α] [Div α]
    [Inhabited α] (g : GraphModel α) (node nextNode : NodeModel α)
    (bnScale bnB bnMean bnVar convW : TensorProto α)
    (convB? : Option (TensorProto α)) (epsilon : α) : GraphModel α :=
  let s := tensorDiv bnScale (tensorSqrt sqrt (tensorAddScalar bnVar epsilon))
  let convW1 := scaleByAxis convW s 1
  let bnOut := nextNode.outputDefs.getD 0 ""
  let convOut := node.outputDefs.getD 0 ""
  let consumerIdx : List Nat := (outputEdges g nextNode).map (fun e => e.1)
  let rewire : GraphModel α → GraphModel α := fun gr =>
    { gr with nodes := gr.nodes.map (fun m =>
        if m.index ∈ consumerIdx then replaceInputDefs m bnOut convOut
        else m) }
  match convB? with
  | some convB =>
    let newB := tensorAdd (tensorMul (tensorSub convB bnMean) s) bnB
    rewire (addInitializedTensor (addInitializedTensor
      (removeInitializedTensor (removeInitializedTensor g convW.name)
        convB.name) convW1) newB)
  | none =>
    let newB := tensorSub bnB (tensorMul bnMean s)
    let g2 := removeInitializedTensor (removeInitializedTensor g convW.name)
      bnB.name
    let g2a := { g2 with nodes := g2.nodes.map (fun m =>
      if m.index = node.index
      then { m with inputDefs := m.inputDefs ++ [bnB.name] }
      else m) }
    rewire (addInitializedTensor (addInitializedTensor g2a convW1) newB)

/-- The graph after the full `ConvBNFusion::Apply` on a single match:
the fused graph with the BatchNormalization node removed. -/
def convBNFusedGraph (sqrt : α → α) [Add α] [Sub α] [Mul α] [Div α]
    [Inhabited α] (g : GraphModel α) (node nextNode : NodeModel α)
    (bnScale bnB bnMean bnVar convW : TensorProto α)
    (convB? : Option (TensorProto α)) (epsilon : α) : GraphModel α :=
  let pre := convBNFusedPre sqrt g node nextNode bnScale bnB bnMean bnVar
    convW convB? epsilon
  { pre with nodes :=
      pre.nodes.filter (fun m => m.index ∉ [nextNode.index]) }

/-! ### Concrete fixtures used by the witnesses -/

/-- Witness fixture for the fusion: the Conv weight, shape `[2,1,1]`. -/
def c3W : TensorProto Int := ⟨"W", 1, [2, 1, 1], [10, 20]⟩

/-- Witness fixture: the BN scale, shape `[2]`. -/
def c3Scale : TensorProto Int := ⟨"s", 1, [2], [3, 4]⟩

/-- Witness fixture: the BN bias `B`, shape `[2]`. -/
def c3B : TensorProto Int := ⟨"B", 1, [2], [5, 6]⟩

/-- Witness fixture: the BN mean, shape `[2]`. -/
def c3Mean : TensorProto Int := ⟨"m", 1, [2], [7, 8]⟩

/-- Witness fixture: the BN variance, shape `[2]`. -/
def c3Var : TensorProto Int := ⟨"v", 1, [2], [2, 6]⟩

/-- Witness fixture: a bias-less Conv node. -/
def c3Conv : NodeModel Int :=
  ⟨0, "Conv", 1, false, "", ["x", "W"], ["c"], [("group", .aint 1)]⟩

/-- Witness fixture: the BatchNormalization consumer of the Conv. -/
def c3BN : NodeModel Int :=
  ⟨1, "BatchNormalization", 7, false, "", ["c", "s", "B", "m", "v"], ["b"],
   [("epsilon", .afloat 2)]⟩

/-- Witness fixture: a downstream consumer of the BN output. -/
def c3Relu : NodeModel Int := ⟨2, "Relu", 6, false, "", ["b"], ["r"], []⟩

/-- Witness fixture: the graph `Conv → BN → Relu` with its
initializers. -/
def c3Graph : GraphModel Int :=
  ⟨[c3Conv, c3BN, c3Relu], [c3W, c3Scale, c3B, c3Mean, c3Var], ["r"],
   ["x", "W", "c", "s", "B", "m", "v", "b", "r"]⟩

/-- A Conv node with two consumers (witness fixture). -/
def c4Conv : NodeModel Int :=
  ⟨0, "Conv", 1, false, "", ["x", "w"], ["c"], [("group", .aint 1)]⟩

/-- A graph in which the Conv node has two output edges (witness
fixture). -/
def c4Graph : GraphModel Int :=
  ⟨[c4Conv,
    ⟨1, "Relu", 6, false, "", ["c"], ["r1"], []⟩,
    ⟨2, "Relu", 6, false, "", ["c"], ["r2"], []⟩],
   [], ["r1", "r2"], ["x", "w", "c", "r1", "r2"]⟩

/-! ## Theorems -/

/-! ### Supporting lemmas -/

/-- `find?` hits the distinguished element when the prefix fails. -/
theorem find?_append_cons {A : Type} {p : A → Bool} (l1 : List A) (a : A)
    (l2 : List A) (h : ∀ x ∈ l1, p x = false) (ha : p a = true) :
    (l1 ++ a :: l2).find? p = some a := by
  induction l1 with
  | nil => simp [List.find?_cons, ha]
  | cons x xs ih =>
    have hx := h x (by simp)
    simp only [List.cons_append, List.find?_cons, hx]
    exact ih (fun y hy => h y (by simp [hy]))

/-- The checked-in unit test of ReverseSequence: the embedding
reproduces the expected output of
`CpuReverseSequenceTest.BatchSequenceX4_int` exactly (evidence that the
embedding is faithful to the kernel). -/
theorem reverseSequence_matches_unit_test :
    ReverseSequence.ComputeImpl [4, 5, 2] 0 1 [1, 3, 5, 4]
      ([111, 112, 0, 0, 0, 0, 0, 0, 0, 0,
        211, 212, 221, 222, 231, 232, 0, 0, 0, 0,
        311, 312, 321, 322, 331, 332, 341, 342, 351, 352,
        411, 412, 421, 422, 431, 432, 441, 442, 0, 0] : List Int) =
    .ok [111, 112, 0, 0, 0, 0, 0, 0, 0, 0,
         231, 232, 221, 222, 211, 212, 0, 0, 0, 0,
         351, 352, 341, 342, 331, 332, 321, 322, 311, 312,
         441, 442, 431, 432, 421, 422, 411, 412, 0, 0] := by
  rfl

/-- Claim C1: for inputs within the enforced bounds,
`ReverseSequence::ComputeImpl` should reverse the first `seq_lengths[b]`
positions along the sequence axis and leave every later position
unchanged.  The code violates the second half: with
`batch_axis = 0 < seq_axis = 1`, shape `[1,3,1]`, `seq_lengths = [1]`
and input `[10,20,30]`, the kernel writes the tail positions reversed
(`[10,30,20]`), where the claim requires them unchanged (`[10,20,30]`):
the tail copy in the `batch_axis < seq_axis` branch applies
`colwise().reverse()` instead of a plain copy. -/
theorem reverseSequence_code_bug :
    ReverseSequence.ComputeImpl [1, 3, 1] 0 1 [1] ([10, 20, 30] : List Int) =
      .ok [10, 30, 20] ∧
    reverseSequenceClaimOutput [1, 3, 1] 0 1 [1] ([10, 20, 30] : List Int) =
      [10, 20, 30] ∧
    ([10, 30, 20] : List Int) ≠ [10, 20, 30] :=
  ⟨rfl, rfl, by decide⟩

/-! ### C2: slice elimination acceptance condition -/

/-- Claim C2 as stated is false on the code: the node below (single-in
single-out, `starts = [0]`, `ends = [0]`, no axes) is accepted by
`EliminateSlice::SatisfyCondition` although an end bound of `0` denotes
an empty slice, not the full axis extent (it is neither `INT64_MAX` nor
a negative sentinel). -/
theorem eliminateSlice_claim_counterexample :
    EliminateSlice.SatisfyCondition ⟨true, some [0], some [0], none⟩ = true ∧
    sliceClaimCondition ⟨true, some [0], some [0], none⟩ = false := by
  constructor <;> rfl

/-- Core of the amended acceptance condition: under the int64 range
bound on the end values, the per-axis rejection loop accepts exactly
the bounds with zero starts and ends that are `INT64_MAX` or
non-positive. -/
theorem slice_loop_iff (starts ends : List Int)
    (hlen : starts.length = ends.length)
    (h64 : ∀ i < ends.length, ends.getD i 0 ≤ int64Max) :
    (∀ i < starts.length, ¬ sliceBoundRejects starts ends i = true) ↔
      ((∀ i < starts.length, starts.getD i 0 = 0) ∧
       (∀ i < ends.length, ends.getD i 0 = int64Max ∨ ends.getD i 0 ≤ 0)) := by
  unfold sliceBoundRejects
  constructor
  · intro h
    constructor
    · intro i hi
      have := h i hi
      simp only [Bool.or_eq_true, decide_eq_true_eq, Bool.and_eq_true,
        not_or] at this
      omega
    · intro i hi
      have hi' : i < starts.length := by omega
      have := h i hi'
      have h64i := h64 i hi
      simp only [Bool.or_eq_true, decide_eq_true_eq, Bool.and_eq_true,
        not_or, int64Max] at this h64i ⊢
      omega
  · rintro ⟨hs, he⟩ i hi
    have h1 := hs i hi
    have h2 := he i (by omega)
    simp only [Bool.or_eq_true, decide_eq_true_eq, Bool.and_eq_true, not_or,
      int64Max] at h2 ⊢
    omega

/-- Claim C2 (amended): `EliminateSlice::SatisfyCondition` returns true
exactly when the node is single-input single-output, `starts` and `ends`
are present with equal lengths (and `axes`, when present, has that same
length), every start is `0`, and every end is `INT64_MAX` **or
non-positive** (the source also accepts an end bound of `0`, which the
original claim excludes).  The hypothesis records that attribute values
are 64-bit integers. -/
theorem eliminateSlice_satisfyCondition_iff (n : SliceNodeView)
    (h64 : ∀ i < (n.ends.getD []).length,
      (n.ends.getD []).getD i 0 ≤ int64Max) :
    EliminateSlice.SatisfyCondition n = sliceAmendedCondition n := by
  obtain ⟨sio, st?, en?, ax?⟩ := n
  simp only [Option.getD] at h64
  unfold EliminateSlice.SatisfyCondition sliceAmendedCondition
  cases sio with
  | false => simp
  | true =>
    simp only [Bool.not_true, Bool.false_eq_true, if_false, Bool.true_and]
    cases st? with
    | none => cases en? <;> rfl
    | some starts =>
      cases en? with
      | none => rfl
      | some ends =>
        have h64' : ∀ i < ends.length, ends.getD i 0 ≤ int64Max := h64
        dsimp only
        by_cases hlen : starts.length = ends.length
        · rw [if_neg (fun h => h hlen)]
          cases ax? with
          | none =>
            rw [if_neg (by simp)]
            simp only [List.length_map, List.length_range]
            rw [decide_eq_decide.mpr (slice_loop_iff starts ends hlen h64'),
              Bool.decide_and]
            simp [hlen]
          | some axes =>
            by_cases hax : axes.length = starts.length
            · rw [if_neg (by simp [hax, hlen])]
              rw [hax,
                decide_eq_decide.mpr (slice_loop_iff starts ends hlen h64'),
                Bool.decide_and]
              simp [hlen, hax]
            · rw [if_pos ⟨by simp, Or.inl hax⟩]
              simp [hax]
        · rw [if_pos hlen]
          simp [hlen]

/-! ### C10: EyeLike out-of-range diagonal -/

/-- Claim C10: for a 2-D input and an out-of-range diagonal offset
(`k ≥ 0` with `k ≥` the column count, or `k < 0` with `|k| ≥` the row
count), `EyeLike::ComputeImpl` returns OK with the all-zero output of
the input shape; an input whose rank differs from 2 yields an
InvalidArgument status. -/
theorem eyeLike_out_of_range_diagonal (dims : List Int) (k : Int)
    (h2 : dims.length = 2)
    (hk : (k ≥ 0 ∧ k ≥ dims.getD 1 0) ∨ (k < 0 ∧ |k| ≥ dims.getD 0 0)) :
    EyeLike.ComputeImpl dims k =
      (Status.OK,
       List.replicate ((dims.getD 0 0).toNat * (dims.getD 1 0).toNat) 0) ∧
    ∀ dims' : List Int, dims'.length ≠ 2 →
      (EyeLike.ComputeImpl dims' k).1.code = StatusCode.invalidArgument := by
  constructor
  · unfold EyeLike.ComputeImpl
    rw [if_neg (by omega), if_pos hk]
  · intro dims' h
    unfold EyeLike.ComputeImpl
    rw [if_pos h]

/-- Witness for C2 (amended) at a node with `starts = [0,0]`,
`ends = [INT64_MAX, -1]`, `axes = [0,1]`. -/
theorem eliminateSlice_satisfyCondition_iff_witness :
    (∀ i < ((⟨true, some [0, 0], some [int64Max, -1], some [0, 1]⟩ :
        SliceNodeView).ends.getD []).length,
      ((⟨true, some [0, 0], some [int64Max, -1], some [0, 1]⟩ :
        SliceNodeView).ends.getD []).getD i 0 ≤ int64Max) ∧
    EliminateSlice.SatisfyCondition
        ⟨true, some [0, 0], some [int64Max, -1], some [0, 1]⟩ =
      sliceAmendedCondition
        ⟨true, some [0, 0], some [int64Max, -1], some [0, 1]⟩ :=
  ⟨by decide, eliminateSlice_satisfyCondition_iff
    ⟨true, some [0, 0], some [int64Max, -1], some [0, 1]⟩ (by decide)⟩

/-! ### C5: fixed point with step cap -/

/-- The fixed-point loop performs at most as many passes as it is given
fuel. -/
theorem applyAllLoop_pass_le (ts : List (γ → γ × Bool)) :
    ∀ (n : Nat) (g : γ), (applyAllLoop ts n g).2 ≤ n := by
  intro n
  induction n with
  | zero => intro g; simp [applyAllLoop]
  | succ n ih =>
    intro g
    unfold applyAllLoop
    dsimp only
    split
    · have := ih (runPipelinePass ts g).1
      simpa using this
    · simp

/-- Claim C5: for every transformer list, every graph and every step cap
`k ≥ 1`, `GraphTransformerManager::ApplyAll` performs at most `k` passes
over the pipeline, and whenever a complete pass reports no modification
the loop stops right after that pass (one pass consumed, its graph
returned). -/
theorem applyAll_cap_and_early_stop (k : Nat) (hk : 1 ≤ k)
    (ts : List (γ → γ × Bool)) (g : γ) :
    (GraphTransformerManager.ApplyAll k ts g).2 ≤ k ∧
    ∀ (fuel : Nat) (g0 : γ), (runPipelinePass ts g0).2 = false →
      applyAllLoop ts (fuel + 1) g0 = ((runPipelinePass ts g0).1, 1) := by
  constructor
  · exact applyAllLoop_pass_le ts k g
  · intro fuel g0 h
    unfold applyAllLoop
    simp [h]

/-- Witness for C5 with cap `1` on a single always-modifying
transformer over `Nat` graphs. -/
theorem applyAll_cap_and_early_stop_witness :
    1 ≤ 1 ∧
    ((GraphTransformerManager.ApplyAll 1
        [fun n : Nat => (n + 1, true)] 0).2 ≤ 1 ∧
      ∀ (fuel : Nat) (g0 : Nat),
        (runPipelinePass [fun n : Nat => (n + 1, true)] g0).2 = false →
        applyAllLoop [fun n : Nat => (n + 1, true)] (fuel + 1) g0 =
          ((runPipelinePass [fun n : Nat => (n + 1, true)] g0).1, 1)) :=
  ⟨by decide,
   applyAll_cap_and_early_stop 1 (by decide) [fun n : Nat => (n + 1, true)] 0⟩

/-! ### C6: feed-name validation in Run -/

/-- Claim C6: on an initialized session, a Run whose feeds omit a
required model input or contain an unknown input name returns the
InvalidArgument status built by `ValidateInputNames` — whose message
names exactly the offending inputs — and the executor is never invoked
(no node of the graph is executed). -/
theorem run_invalid_input_names (s : SessionCore) (feeds : Feeds)
    (outputNames : List String) (fetchesSize : Option Nat)
    (execute : Unit → Status)
    (hinit : s.isInited = true)
    (hbad :
      s.requiredModelInputNames.filter
        (fun r => ¬ feeds.any (fun p => p.1 = r)) ≠ [] ∨
      (feeds.map Prod.fst).filter (fun f => f ∉ s.modelInputNames) ≠ []) :
    InferenceSession.Run s feeds outputNames fetchesSize execute =
      (InferenceSession.ValidateInputNames s feeds, false) ∧
    InferenceSession.ValidateInputNames s feeds =
      ⟨StatusCode.invalidArgument,
       if s.requiredModelInputNames.filter
            (fun r => ¬ feeds.any (fun p => p.1 = r)) ≠ [] then
         missingInputsMsg (s.requiredModelInputNames.filter
           (fun r => ¬ feeds.any (fun p => p.1 = r)))
       else
         invalidFeedNamesMsg
           ((feeds.map Prod.fst).filter (fun f => f ∉ s.modelInputNames))
           s.modelInputNames⟩ := by
  have hv : InferenceSession.ValidateInputNames s feeds =
      ⟨StatusCode.invalidArgument,
       if s.requiredModelInputNames.filter
            (fun r => ¬ feeds.any (fun p => p.1 = r)) ≠ [] then
         missingInputsMsg (s.requiredModelInputNames.filter
           (fun r => ¬ feeds.any (fun p => p.1 = r)))
       else
         invalidFeedNamesMsg
           ((feeds.map Prod.fst).filter (fun f => f ∉ s.modelInputNames))
           s.modelInputNames⟩ := by
    unfold InferenceSession.ValidateInputNames
    by_cases hm : s.requiredModelInputNames.filter
        (fun r => ¬ feeds.any (fun p => p.1 = r)) ≠ []
    · rw [if_pos hm, if_pos hm]
    · rw [if_neg hm, if_neg hm]
      have hi : (feeds.map Prod.fst).filter
          (fun f => f ∉ s.modelInputNames) ≠ [] := hbad.resolve_left hm
      rw [if_pos hi]
  refine ⟨?_, hv⟩
  unfold InferenceSession.Run InferenceSession.ValidateInputs
    checkAndSetRetval
  rw [hinit, hv]
  simp [Status.IsOK, Status.OK]

/-- Witness for C6: a session requiring input "x" run with an empty
feed list. -/
theorem run_invalid_input_names_witness :
    ((⟨true, ["x"], ["x"], ["y"], [("x", 1)]⟩ : SessionCore).isInited = true ∧
      (["x"].filter (fun r => ¬ ([] : Feeds).any (fun p => p.1 = r)) ≠ [] ∨
        (([] : Feeds).map Prod.fst).filter (fun f => f ∉ ["x"]) ≠ [])) ∧
    (InferenceSession.Run ⟨true, ["x"], ["x"], ["y"], [("x", 1)]⟩ [] ["y"]
        (some 0) (fun _ => Status.OK) =
      (InferenceSession.ValidateInputNames
        ⟨true, ["x"], ["x"], ["y"], [("x", 1)]⟩ [], false) ∧
     InferenceSession.ValidateInputNames
        ⟨true, ["x"], ["x"], ["y"], [("x", 1)]⟩ [] =
      ⟨StatusCode.invalidArgument,
       if ["x"].filter (fun r => ¬ ([] : Feeds).any (fun p => p.1 = r)) ≠ []
       then missingInputsMsg
         (["x"].filter (fun r => ¬ ([] : Feeds).any (fun p => p.1 = r)))
       else invalidFeedNamesMsg
         ((([] : Feeds).map Prod.fst).filter (fun f => f ∉ ["x"])) ["x"]⟩) :=
  ⟨⟨rfl, by left; decide⟩,
   run_invalid_input_names ⟨true, ["x"], ["x"], ["y"], [("x", 1)]⟩ [] ["y"]
     (some 0) (fun _ => Status.OK) rfl (by left; decide)⟩

/-! ### C7: Load on an already-loaded session -/

/-- Claim C7: once a model has been loaded, every further call to any
`Load` overload returns the MODEL_LOADED status and leaves the session
state — in particular the loaded model — untouched, whatever the
overload-specific loader and post-processing would do. -/
theorem load_on_loaded_session (s : SessionLoadState)
    (loadModel : Unit → Except Status Nat)
    (postLoad : Nat → SessionLoadState → Except Status SessionLoadState)
    (h : s.isModelLoaded = true) :
    InferenceSession.Load s loadModel postLoad =
      (⟨StatusCode.modelLoaded,
        "This session already contains a loaded model."⟩, s) := by
  unfold InferenceSession.Load
  rw [if_pos h]

/-- Witness for C7 on a loaded session whose loader would replace the
model if it ran. -/
theorem load_on_loaded_session_witness :
    (⟨true, some 7, 3⟩ : SessionLoadState).isModelLoaded = true ∧
    InferenceSession.Load ⟨true, some 7, 3⟩ (fun _ => .ok 99)
        (fun m st => .ok { st with model := some m }) =
      (⟨StatusCode.modelLoaded,
        "This session already contains a loaded model."⟩,
       (⟨true, some 7, 3⟩ : SessionLoadState)) :=
  ⟨rfl, load_on_loaded_session ⟨true, some 7, 3⟩ (fun _ => .ok 99)
    (fun m st => .ok { st with model := some m }) rfl⟩

/-! ### C9: output validation in Run -/

/-- Claim C9 as stated ("for every Run call") is false on the code: on a
session that is not initialized, Run with a null fetch-vector pointer
returns a FAIL status ("Session not initialized."), not an
InvalidArgument status. -/
theorem run_claim_counterexample_uninitialized :
    (InferenceSession.Run ⟨false, [], [], [], []⟩ [] [] none
        (fun _ => Status.OK)).1.code = StatusCode.fail ∧
    StatusCode.fail ≠ StatusCode.invalidArgument :=
  ⟨rfl, by decide⟩

/-- The input validations produce only OK or InvalidArgument codes. -/
theorem validateInputTypesAux_code (feeds : Feeds) :
    ∀ l, (validateInputTypesAux feeds l).code = StatusCode.ok ∨
      (validateInputTypesAux feeds l).code = StatusCode.invalidArgument := by
  intro l
  induction l with
  | nil => left; rfl
  | cons p rest ih =>
    obtain ⟨argName, expected⟩ := p
    unfold validateInputTypesAux
    cases feeds.lookup argName with
    | none => exact ih
    | some actual =>
      dsimp only
      by_cases hn : argName = ""
      · rw [if_pos hn]; exact ih
      · rw [if_neg hn]
        unfold InferenceSession.CheckTypes
        by_cases ht : actual = expected
        · rw [if_pos ht]; simpa [Status.IsOK, Status.OK] using ih
        · rw [if_neg ht]; simp [Status.IsOK]

/-- `ValidateInputs` produces only OK or InvalidArgument codes. -/
theorem validateInputs_code (s : SessionCore) (feeds : Feeds) :
    (InferenceSession.ValidateInputs s feeds).code = StatusCode.ok ∨
    (InferenceSession.ValidateInputs s feeds).code =
      StatusCode.invalidArgument := by
  unfold InferenceSession.ValidateInputs InferenceSession.ValidateInputNames
  by_cases hm : s.requiredModelInputNames.filter
      (fun r => ¬ feeds.any (fun p => p.1 = r)) ≠ []
  · rw [if_pos hm]; simp [Status.IsOK]
  · rw [if_neg hm]
    by_cases hi : (feeds.map Prod.fst).filter
        (fun f => f ∉ s.modelInputNames) ≠ []
    · rw [if_pos hi]; simp [Status.IsOK]
    · rw [if_neg hi]
      simpa [Status.IsOK, Status.OK] using
        validateInputTypesAux_code feeds s.inputDefList

/-- Under any of the four rejection conditions, `ValidateOutputs`
returns an InvalidArgument status. -/
theorem validateOutputs_invalid (s : SessionCore)
    (outputNames : List String) (fetchesSize : Option Nat)
    (hbad : fetchesSize = none ∨ outputNames = [] ∨
      (∃ sz, fetchesSize = some sz ∧ sz ≠ 0 ∧ outputNames.length ≠ sz) ∨
      ∃ nm ∈ outputNames, nm ∉ s.modelOutputNames) :
    (InferenceSession.ValidateOutputs s outputNames fetchesSize).code =
      StatusCode.invalidArgument := by
  unfold InferenceSession.ValidateOutputs
  cases hf : fetchesSize with
  | none => rfl
  | some sz =>
    dsimp only
    by_cases h1 : outputNames = []
    · rw [if_pos h1]
    · rw [if_neg h1]
      by_cases h2 : sz ≠ 0 ∧ outputNames.length ≠ sz
      · rw [if_pos h2]
      · rw [if_neg h2]
        have h4 : ∃ nm ∈ outputNames, nm ∉ s.modelOutputNames := by
          rcases hbad with h | h | ⟨sz', hsz', hne, hlen⟩ | h
          · rw [hf] at h; cases h
          · exact absurd h h1
          · rw [hf] at hsz'
            cases hsz'
            exact absurd ⟨hne, hlen⟩ h2
          · exact h
        obtain ⟨nm, hmem, hnm⟩ := h4
        have : nm ∈ outputNames.filter (fun n => n ∉ s.modelOutputNames) :=
          List.mem_filter.mpr ⟨hmem, by simpa using hnm⟩
        rw [if_pos (List.ne_nil_of_mem this)]

/-- Claim C9 (amended): on an **initialized** session, a Run whose fetch
pointer is null, or whose output-name list is empty, or whose non-empty
fetch vector is sized differently from the output names, or which
requests a name that is not a model output, returns an InvalidArgument
status and never invokes the executor (no node is executed).  The
initialization premise is forced by the counterexample above. -/
theorem run_output_validation_rejected (s : SessionCore) (feeds : Feeds)
    (outputNames : List String) (fetchesSize : Option Nat)
    (execute : Unit → Status)
    (hinit : s.isInited = true)
    (hbad : fetchesSize = none ∨ outputNames = [] ∨
      (∃ sz, fetchesSize = some sz ∧ sz ≠ 0 ∧ outputNames.length ≠ sz) ∨
      ∃ nm ∈ outputNames, nm ∉ s.modelOutputNames) :
    (InferenceSession.Run s feeds outputNames fetchesSize execute).1.code =
      StatusCode.invalidArgument ∧
    (InferenceSession.Run s feeds outputNames fetchesSize execute).2 =
      false := by
  unfold InferenceSession.Run checkAndSetRetval
  rw [hinit]
  rcases validateInputs_code s feeds with hok | hinv
  · have h2 : (InferenceSession.ValidateOutputs s outputNames
        fetchesSize).code = StatusCode.invalidArgument :=
      validateOutputs_invalid s outputNames fetchesSize hbad
    simp [Status.IsOK, Status.OK, hok, h2]
  · simp [Status.IsOK, Status.OK, hinv]

/-- Witness for C9 (amended): an initialized session run with an empty
output-name list. -/
theorem run_output_validation_rejected_witness :
    ((⟨true, [], [], ["y"], []⟩ : SessionCore).isInited = true ∧
      ((some 0 : Option Nat) = none ∨ ([] : List String) = [] ∨
        (∃ sz, (some 0 : Option Nat) = some sz ∧ sz ≠ 0 ∧
          ([] : List String).length ≠ sz) ∨
        ∃ nm ∈ ([] : List String),
          nm ∉ (⟨true, [], [], ["y"], []⟩ : SessionCore).modelOutputNames)) ∧
    ((InferenceSession.Run ⟨true, [], [], ["y"], []⟩ [] [] (some 0)
        (fun _ => Status.OK)).1.code = StatusCode.invalidArgument ∧
     (InferenceSession.Run ⟨true, [], [], ["y"], []⟩ [] [] (some 0)
        (fun _ => Status.OK)).2 = false) :=
  ⟨⟨rfl, Or.inr (Or.inl rfl)⟩,
   run_output_validation_rejected ⟨true, [], [], ["y"], []⟩ [] [] (some 0)
     (fun _ => Status.OK) rfl (Or.inr (Or.inl rfl))⟩

/-! ### C8: identity elimination -/

/-- A node of the graph is a consumer of `n` (the target of one of its
output edges) exactly when the eliminated output definition occurs among
its input definitions; distinct node indices make the edge list
unambiguous. -/
theorem mem_consumerIdx_iff (g : GraphModel α) (n : NodeModel α)
    (out : String) (hout : n.outputDefs = [out])
    (hnodup : (g.nodes.map (fun m => m.index)).Nodup)
    (m : NodeModel α) (hm : m ∈ g.nodes) :
    m.index ∈ (outputEdges g n).map (fun e => e.1) ↔ out ∈ m.inputDefs := by
  unfold outputEdges
  constructor
  · intro h
    obtain ⟨e, he, hidx⟩ := List.mem_map.mp h
    obtain ⟨m', hm', he'⟩ := List.mem_flatMap.mp he
    obtain ⟨i, hi, hcond⟩ := List.mem_filterMap.mp he'
    have hi' : i < m'.inputDefs.length := List.mem_range.mp hi
    by_cases hc : m'.inputDefs.getD i "" ∈ n.outputDefs
    · rw [if_pos hc] at hcond
      cases hcond
      have hmm : m' = m :=
        List.inj_on_of_nodup_map hnodup hm' hm hidx
      subst hmm
      rw [hout] at hc
      simp only [List.mem_singleton] at hc
      rw [List.getD_eq_getElem m'.inputDefs "" hi'] at hc
      rw [← hc]
      exact List.getElem_mem hi'
    · rw [if_neg hc] at hcond
      cases hcond
  · intro h
    obtain ⟨i, hi, hget⟩ := List.mem_iff_getElem.mp h
    refine List.mem_map.mpr ⟨(m.index, i), ?_, rfl⟩
    refine List.mem_flatMap.mpr ⟨m, hm, ?_⟩
    refine List.mem_filterMap.mpr ⟨i, List.mem_range.mpr hi, ?_⟩
    rw [if_pos]
    rw [List.getD_eq_getElem m.inputDefs "" hi, hget, hout]
    simp

/-- Replacing a definition that does not occur leaves a node
unchanged. -/
theorem replaceInputDefs_of_notMem (m : NodeModel α) (out inp : String)
    (h : out ∉ m.inputDefs) : replaceInputDefs m out inp = m := by
  unfold replaceInputDefs
  have : m.inputDefs.map (fun d => if d = out then inp else d) =
      m.inputDefs.map id := by
    apply List.map_eq_map_iff.mpr
    intro d hd
    have : d ≠ out := fun hce => h (hce ▸ hd)
    simp [this]
  rw [this, List.map_id]

/-- Claim C8: `EliminateIdentity::SatisfyCondition` holds for every node
of every graph, and `EliminateIdentity::Apply` rewires every consumer of
the identity output to the identity input, removes the identity node and
returns OK — unconditionally, consumers or not.  The resulting node list
is exactly the original one, minus the identity node, with the output
definition substituted in every input-definition list. -/
theorem eliminateIdentity_unconditional (g : GraphModel α)
    (n : NodeModel α) (modified : Bool) (out inp : String)
    (hout : n.outputDefs = [out])
    (hin : n.inputDefs.getD 0 "" = inp)
    (hnodup : (g.nodes.map (fun m => m.index)).Nodup) :
    EliminateIdentity.SatisfyCondition g n = true ∧
    EliminateIdentity.Apply g n modified =
      (Status.OK,
       { g with nodes := ((g.nodes.filter (fun m => m.index ≠ n.index)).map
           (fun m => replaceInputDefs m out inp)) },
       modified || !(outputEdges g n).isEmpty) := by
  refine ⟨rfl, ?_⟩
  have hout0 : n.outputDefs.getD 0 "" = out := by rw [hout]; rfl
  have hstep :
      ((g.nodes.map (fun m =>
        if m.index ∈ (outputEdges g n).map (fun e => e.1)
        then replaceInputDefs m out inp else m)).filter
          (fun m => m.index ≠ n.index)) =
      (g.nodes.filter (fun m => m.index ≠ n.index)).map
        (fun m => replaceInputDefs m out inp) := by
    rw [List.filter_map]
    have hcomp :
        ((fun m : NodeModel α => decide (m.index ≠ n.index)) ∘
          (fun m => if m.index ∈ (outputEdges g n).map (fun e => e.1)
            then replaceInputDefs m out inp else m)) =
        fun m : NodeModel α => decide (m.index ≠ n.index) := by
      funext m
      by_cases h : m.index ∈ (outputEdges g n).map (fun e => e.1) <;>
        simp [h, replaceInputDefs]
    rw [hcomp]
    apply List.map_eq_map_iff.mpr
    intro m hm
    have hmem : m ∈ g.nodes := List.mem_of_mem_filter hm
    by_cases h : out ∈ m.inputDefs
    · rw [if_pos ((mem_consumerIdx_iff g n out hout hnodup m hmem).mpr h)]
    · rw [if_neg (fun hc =>
        h ((mem_consumerIdx_iff g n out hout hnodup m hmem).mp hc))]
      exact (replaceInputDefs_of_notMem m out inp h).symm
  simp only [EliminateIdentity.Apply]
  rw [hin, hout0, hstep]

/-- Witness for C8: an `Abs → Identity → Max` chain; after Apply the Max
node reads the Abs output directly and the Identity node is gone. -/
theorem eliminateIdentity_unconditional_witness :
    ((⟨1, "Identity", 1, false, "", ["x"], ["y"], []⟩ :
        NodeModel Int).outputDefs = ["y"] ∧
      (⟨1, "Identity", 1, false, "", ["x"], ["y"], []⟩ :
        NodeModel Int).inputDefs.getD 0 "" = "x" ∧
      ((⟨[⟨0, "Abs", 1, false, "", ["a"], ["x"], []⟩,
          ⟨1, "Identity", 1, false, "", ["x"], ["y"], []⟩,
          ⟨2, "Max", 1, false, "", ["y"], ["z"], []⟩],
         [], ["z"], ["a", "x", "y", "z"]⟩ :
        GraphModel Int).nodes.map (fun m => m.index)).Nodup) ∧
    (EliminateIdentity.SatisfyCondition
        (⟨[⟨0, "Abs", 1, false, "", ["a"], ["x"], []⟩,
           ⟨1, "Identity", 1, false, "", ["x"], ["y"], []⟩,
           ⟨2, "Max", 1, false, "", ["y"], ["z"], []⟩],
          [], ["z"], ["a", "x", "y", "z"]⟩ : GraphModel Int)
        ⟨1, "Identity", 1, false, "", ["x"], ["y"], []⟩ = true ∧
     EliminateIdentity.Apply
        (⟨[⟨0, "Abs", 1, false, "", ["a"], ["x"], []⟩,
           ⟨1, "Identity", 1, false, "", ["x"], ["y"], []⟩,
           ⟨2, "Max", 1, false, "", ["y"], ["z"], []⟩],
          [], ["z"], ["a", "x", "y", "z"]⟩ : GraphModel Int)
        ⟨1, "Identity", 1, false, "", ["x"], ["y"], []⟩ false =
      (Status.OK,
       { (⟨[⟨0, "Abs", 1, false, "", ["a"], ["x"], []⟩,
            ⟨1, "Identity", 1, false, "", ["x"], ["y"], []⟩,
            ⟨2, "Max", 1, false, "", ["y"], ["z"], []⟩],
           [], ["z"], ["a", "x", "y", "z"]⟩ : GraphModel Int) with
         nodes := (((⟨[⟨0, "Abs", 1, false, "", ["a"], ["x"], []⟩,
            ⟨1, "Identity", 1, false, "", ["x"], ["y"], []⟩,
            ⟨2, "Max", 1, false, "", ["y"], ["z"], []⟩],
           [], ["z"], ["a", "x", "y", "z"]⟩ : GraphModel Int).nodes.filter
             (fun m => m.index ≠
               (⟨1, "Identity", 1, false, "", ["x"], ["y"], []⟩ :
                 NodeModel Int).index)).map
           (fun m => replaceInputDefs m "y" "x")) },
       false || !(outputEdges
         (⟨[⟨0, "Abs", 1, false, "", ["a"], ["x"], []⟩,
            ⟨1, "Identity", 1, false, "", ["x"], ["y"], []⟩,
            ⟨2, "Max", 1, false, "", ["y"], ["z"], []⟩],
           [], ["z"], ["a", "x", "y", "z"]⟩ : GraphModel Int)
         ⟨1, "Identity", 1, false, "", ["x"], ["y"], []⟩).isEmpty)) :=
  ⟨⟨rfl, rfl, by decide⟩,
   eliminateIdentity_unconditional
     ⟨[⟨0, "Abs", 1, false, "", ["a"], ["x"], []⟩,
       ⟨1, "Identity", 1, false, "", ["x"], ["y"], []⟩,
       ⟨2, "Max", 1, false, "", ["y"], ["z"], []⟩],
      [], ["z"], ["a", "x", "y", "z"]⟩
     ⟨1, "Identity", 1, false, "", ["x"], ["y"], []⟩ false "y" "x"
     rfl (by decide) (by decide)⟩

/-! ### C4: the Conv fusion rules skip ineligible Conv nodes -/

/-- The BN-fusion loop body leaves the state unchanged when the node is
not an eligible Conv. -/
theorem convBN_step_skip_unsupported (sqrt : α → α) [Add α] [Sub α]
    [Mul α] [Div α] [Inhabited α] (g : GraphModel α) (removed : List Nat)
    (idx : Nat) (n : NodeModel α) (hfind : findNode g idx = some n)
    (hnsup : ¬ (IsSupportedOptypeVersionAndDomain n "Conv" 1 = true ∧
      outputEdgesCount g n = 1)) :
    ConvBNFusion.step sqrt (g, removed) idx = (g, removed) := by
  unfold ConvBNFusion.step
  dsimp only
  rw [hfind]
  dsimp only
  rw [if_pos hnsup]

/-- The Mul-fusion loop body leaves the state unchanged when the node is
not an eligible Conv. -/
theorem convMul_step_skip_unsupported [Add α] [Sub α] [Mul α] [Div α]
    [Inhabited α] (g : GraphModel α) (removed : List Nat) (idx : Nat)
    (n : NodeModel α) (hfind : findNode g idx = some n)
    (hnsup : ¬ (IsSupportedOptypeVersionAndDomain n "Conv" 1 = true ∧
      outputEdgesCount g n = 1)) :
    ConvMulFusion.step (g, removed) idx = (g, removed) := by
  unfold ConvMulFusion.step
  dsimp only
  rw [hfind]
  dsimp only
  rw [if_pos hnsup]

/-- The BN-fusion loop body leaves the state unchanged for any node
whose output-edge count differs from one, or whose successor produces a
graph output. -/
theorem convBN_step_skip (sqrt : α → α) [Add α] [Sub α] [Mul α] [Div α]
    [Inhabited α] (g : GraphModel α) (removed : List Nat) (idx : Nat)
    (n : NodeModel α) (hfind : findNode g idx = some n)
    (hskip : outputEdgesCount g n ≠ 1 ∨
      ∃ m, firstOutputNode g n = some m ∧
        isNodeOutputsInGraphOutputs g m = true) :
    ConvBNFusion.step sqrt (g, removed) idx = (g, removed) := by
  by_cases hsup : IsSupportedOptypeVersionAndDomain n "Conv" 1 = true ∧
      outputEdgesCount g n = 1
  · rcases hskip with hedge | ⟨m, hm, hout⟩
    · exact absurd hsup.2 hedge
    · unfold ConvBNFusion.step
      dsimp only
      rw [hfind]
      dsimp only
      rw [if_neg (not_not_intro hsup), hm]
      dsimp only
      rw [if_pos (fun hc => by
        have := hc.2.2
        rw [hout] at this
        cases this)]
  · exact convBN_step_skip_unsupported sqrt g removed idx n hfind hsup

/-- The Mul-fusion loop body leaves the state unchanged for any node
whose output-edge count differs from one, or whose successor produces a
graph output. -/
theorem convMul_step_skip [Add α] [Sub α] [Mul α] [Div α] [Inhabited α]
    (g : GraphModel α) (removed : List Nat) (idx : Nat)
    (n : NodeModel α) (hfind : findNode g idx = some n)
    (hskip : outputEdgesCount g n ≠ 1 ∨
      ∃ m, firstOutputNode g n = some m ∧
        isNodeOutputsInGraphOutputs g m = true) :
    ConvMulFusion.step (g, removed) idx = (g, removed) := by
  by_cases hsup : IsSupportedOptypeVersionAndDomain n "Conv" 1 = true ∧
      outputEdgesCount g n = 1
  · rcases hskip with hedge | ⟨m, hm, hout⟩
    · exact absurd hsup.2 hedge
    · unfold ConvMulFusion.step
      dsimp only
      rw [hfind]
      dsimp only
      rw [if_neg (not_not_intro hsup), hm]
      dsimp only
      rw [if_pos (fun hc => by
        have := hc.2.2
        rw [hout] at this
        cases this)]
  · exact convMul_step_skip_unsupported g removed idx n hfind hsup

/-- A fold of either loop body over node indices of `g` is the identity
when every Conv node of `g` is skip-eligible. -/
theorem conv_fold_skip (sqrt : α → α) [Add α] [Sub α] [Mul α] [Div α]
    [Inhabited α] (g : GraphModel α)
    (hall : ∀ n ∈ g.nodes,
      IsSupportedOptypeVersionAndDomain n "Conv" 1 = true →
      outputEdgesCount g n ≠ 1 ∨
        ∃ m, firstOutputNode g n = some m ∧
          isNodeOutputsInGraphOutputs g m = true) :
    ∀ (L : List Nat) (removed : List Nat),
      L.foldl (ConvBNFusion.step sqrt) (g, removed) = (g, removed) ∧
      L.foldl ConvMulFusion.step (g, removed) = (g, removed) := by
  have hone : ∀ (idx : Nat) (removed : List Nat),
      ConvBNFusion.step sqrt (g, removed) idx = (g, removed) ∧
      ConvMulFusion.step (g, removed) idx = (g, removed) := by
    intro idx removed
    cases hfind : findNode g idx with
    | none =>
      constructor
      · unfold ConvBNFusion.step
        dsimp only
        rw [hfind]
      · unfold ConvMulFusion.step
        dsimp only
        rw [hfind]
    | some n =>
      have hmem : n ∈ g.nodes := List.mem_of_find?_eq_some hfind
      by_cases hsup : IsSupportedOptypeVersionAndDomain n "Conv" 1 = true
      · have hskip := hall n hmem hsup
        exact ⟨convBN_step_skip sqrt g removed idx n hfind hskip,
               convMul_step_skip g removed idx n hfind hskip⟩
      · have hnsup : ¬ (IsSupportedOptypeVersionAndDomain n "Conv" 1 = true ∧
            outputEdgesCount g n = 1) := fun hc => hsup hc.1
        exact ⟨convBN_step_skip_unsupported sqrt g removed idx n hfind hnsup,
               convMul_step_skip_unsupported g removed idx n hfind hnsup⟩
  intro L
  induction L with
  | nil => intro removed; exact ⟨rfl, rfl⟩
  | cons idx rest ih =>
    intro removed
    constructor
    · rw [List.foldl_cons, (hone idx removed).1]
      exact (ih removed).1
    · rw [List.foldl_cons, (hone idx removed).2]
      exact (ih removed).2

/-- Claim C4: a Conv node whose number of output edges differs from one,
or whose single successor produces a graph output, is skipped entirely
by both Conv fusion rules: the per-node loop body leaves the graph and
the removal list untouched whatever the traversal state, and when every
Conv node of the graph is in that situation both `ConvBNFusion::Apply`
and `ConvMulFusion::Apply` return an OK status with the graph unchanged,
no node removed, no initializer touched and the modified flag not
set. -/
theorem convFusion_skip (sqrt : α → α) [Add α] [Sub α] [Mul α] [Div α]
    [Inhabited α] (g : GraphModel α) (idx : Nat) (n : NodeModel α)
    (hfind : findNode g idx = some n)
    (hskip : outputEdgesCount g n ≠ 1 ∨
      ∃ m, firstOutputNode g n = some m ∧
        isNodeOutputsInGraphOutputs g m = true) :
    (∀ removed : List Nat,
      ConvBNFusion.step sqrt (g, removed) idx = (g, removed) ∧
      ConvMulFusion.step (g, removed) idx = (g, removed)) ∧
    ((∀ n' ∈ g.nodes,
        IsSupportedOptypeVersionAndDomain n' "Conv" 1 = true →
        outputEdgesCount g n' ≠ 1 ∨
          ∃ m, firstOutputNode g n' = some m ∧
            isNodeOutputsInGraphOutputs g m = true) →
      ConvBNFusion.Apply sqrt g = (Status.OK, g, false) ∧
      ConvMulFusion.Apply g = (Status.OK, g, false)) := by
  constructor
  · intro removed
    exact ⟨convBN_step_skip sqrt g removed idx n hfind hskip,
           convMul_step_skip g removed idx n hfind hskip⟩
  · intro hall
    have hfold := conv_fold_skip sqrt g hall (g.nodes.map (fun m => m.index)) []
    have hfilter : g.nodes.filter (fun m => m.index ∉ ([] : List Nat)) =
        g.nodes :=
      List.filter_eq_self.mpr (fun a _ => by simp)
    constructor
    · unfold ConvBNFusion.Apply
      dsimp only
      rw [hfold.1]
      dsimp only
      rw [hfilter]
      rfl
    · unfold ConvMulFusion.Apply
      dsimp only
      rw [hfold.2]
      dsimp only
      rw [hfilter]
      rfl

/-- Witness for C4: a Conv node with two consumers (two output edges)
in a three-node graph. -/
theorem convFusion_skip_witness :
    (findNode c4Graph 0 = some c4Conv ∧
      (outputEdgesCount c4Graph c4Conv ≠ 1 ∨
        ∃ m, firstOutputNode c4Graph c4Conv = some m ∧
          isNodeOutputsInGraphOutputs c4Graph m = true)) ∧
    ((∀ removed : List Nat,
        ConvBNFusion.step (fun x : Int => x) (c4Graph, removed) 0 =
          (c4Graph, removed) ∧
        ConvMulFusion.step (c4Graph, removed) 0 = (c4Graph, removed)) ∧
      ((∀ n' ∈ c4Graph.nodes,
          IsSupportedOptypeVersionAndDomain n' "Conv" 1 = true →
          outputEdgesCount c4Graph n' ≠ 1 ∨
            ∃ m, firstOutputNode c4Graph n' = some m ∧
              isNodeOutputsInGraphOutputs c4Graph m = true) →
        ConvBNFusion.Apply (fun x : Int => x) c4Graph =
          (Status.OK, c4Graph, false) ∧
        ConvMulFusion.Apply c4Graph = (Status.OK, c4Graph, false))) :=
  ⟨⟨rfl, Or.inl (by decide)⟩,
   convFusion_skip (fun x : Int => x) c4Graph 0 c4Conv rfl
     (Or.inl (by decide))⟩

/-- Witness for C10 at shape `[2,3]` with diagonal offset `5`. -/
theorem eyeLike_out_of_range_diagonal_witness :
    (([2, 3] : List Int).length = 2 ∧
      ((5 : Int) ≥ 0 ∧ (5 : Int) ≥ ([2, 3] : List Int).getD 1 0) ∨
        ((5 : Int) < 0 ∧ |(5 : Int)| ≥ ([2, 3] : List Int).getD 0 0)) ∧
    (EyeLike.ComputeImpl [2, 3] 5 =
      (Status.OK,
       List.replicate ((([2, 3] : List Int).getD 0 0).toNat *
         (([2, 3] : List Int).getD 1 0).toNat) 0) ∧
     ∀ dims' : List Int, dims'.length ≠ 2 →
       (EyeLike.ComputeImpl dims' 5).1.code = StatusCode.invalidArgument) :=
  ⟨by decide, eyeLike_out_of_range_diagonal [2, 3] 5 (by decide)
    (by left; constructor <;> decide)⟩

/-! ### C3: Conv⊕BatchNormalization fusion -/

/-- A node accepted by the (op-type, version, domain) gate has the
requested operator type. -/
theorem opType_of_isSupported (n : NodeModel α) (op : String) (v : Nat)
    (d : String)
    (h : IsSupportedOptypeVersionAndDomain n op v d = true) :
    n.opType = op := by
  unfold IsSupportedOptypeVersionAndDomain at h
  rw [decide_eq_true_eq] at h
  push_neg at h
  exact h.1

/-- Node lookup commutes with an index-preserving map of the node
list. -/
theorem find?_nodes_map (nodes : List (NodeModel α))
    (F : NodeModel α → NodeModel α) (hF : ∀ m, (F m).index = m.index)
    (idx : Nat) :
    (nodes.map F).find? (fun m => m.index = idx) =
      (nodes.find? (fun m => m.index = idx)).map F := by
  rw [List.find?_map]
  have hp : ((fun m : NodeModel α => decide (m.index = idx)) ∘ F) =
      (fun m : NodeModel α => decide (m.index = idx)) := by
    funext m
    simp [Function.comp, hF m]
  rw [hp]

/-- A found node has the looked-up index and belongs to the graph. -/
theorem findNode_facts (g : GraphModel α) (idx : Nat) (m : NodeModel α)
    (h : findNode g idx = some m) : m ∈ g.nodes ∧ m.index = idx := by
  refine ⟨List.mem_of_find?_eq_some h, ?_⟩
  have := List.find?_some h
  exact decide_eq_true_eq.mp this

/-- The BN-fusion fold skips every index resolving to a non-Conv
node. -/
theorem convBN_foldl_skip_nonconv (sqrt : α → α) [Add α] [Sub α] [Mul α]
    [Div α] [Inhabited α] (G : GraphModel α) :
    ∀ L : List Nat,
      (∀ idx ∈ L, ∀ m, findNode G idx = some m → m.opType ≠ "Conv") →
      ∀ removed : List Nat,
        L.foldl (ConvBNFusion.step sqrt) (G, removed) = (G, removed) := by
  intro L
  induction L with
  | nil => intro _ removed; rfl
  | cons idx rest ih =>
    intro h removed
    rw [List.foldl_cons]
    have hone : ConvBNFusion.step sqrt (G, removed) idx = (G, removed) := by
      cases hfind : findNode G idx with
      | none =>
        unfold ConvBNFusion.step
        dsimp only
        rw [hfind]
      | some m =>
        refine convBN_step_skip_unsupported sqrt G removed idx m hfind ?_
        rintro ⟨hs, _⟩
        exact h idx (by simp) m hfind (opType_of_isSupported m _ _ _ hs)
    rw [hone]
    exact ih (fun i hi m hm => h i (by simp [hi]) m hm) removed

/-- The nodes of the fused (pre-removal) graph are an index- and
op-type-preserving image of the original nodes: a lookup there reflects
to a lookup in the original graph with the same operator type. -/
theorem convBNFusedPre_find (sqrt : α → α) [Add α] [Sub α] [Mul α]
    [Div α] [Inhabited α] (g : GraphModel α) (node nextNode : NodeModel α)
    (bnScale bnB bnMean bnVar convW : TensorProto α)
    (convB? : Option (TensorProto α)) (epsilon : α) (idx : Nat)
    (m' : NodeModel α)
    (hfind : findNode (convBNFusedPre sqrt g node nextNode bnScale bnB
      bnMean bnVar convW convB? epsilon) idx = some m') :
    ∃ m, findNode g idx = some m ∧ m'.opType = m.opType := by
  have hrw : ∀ m : NodeModel α,
      ((if m.index ∈ (outputEdges g nextNode).map (fun e => e.1)
        then replaceInputDefs m (nextNode.outputDefs.getD 0 "")
          (node.outputDefs.getD 0 "")
        else m) : NodeModel α).index = m.index := by
    intro m
    by_cases h : m.index ∈ (outputEdges g nextNode).map (fun e => e.1) <;>
      simp [h, replaceInputDefs]
  have hrwT : ∀ m : NodeModel α,
      ((if m.index ∈ (outputEdges g nextNode).map (fun e => e.1)
        then replaceInputDefs m (nextNode.outputDefs.getD 0 "")
          (node.outputDefs.getD 0 "")
        else m) : NodeModel α).opType = m.opType := by
    intro m
    by_cases h : m.index ∈ (outputEdges g nextNode).map (fun e => e.1) <;>
      simp [h, replaceInputDefs]
  have hpu : ∀ m : NodeModel α,
      ((if m.index = node.index
        then { m with inputDefs := m.inputDefs ++ [bnB.name] }
        else m) : NodeModel α).index = m.index := by
    intro m
    by_cases h : m.index = node.index <;> simp [h]
  have hpuT : ∀ m : NodeModel α,
      ((if m.index = node.index
        then { m with inputDefs := m.inputDefs ++ [bnB.name] }
        else m) : NodeModel α).opType = m.opType := by
    intro m
    by_cases h : m.index = node.index <;> simp [h]
  cases convB? with
  | some convB =>
    unfold convBNFusedPre at hfind
    dsimp only [findNode, removeInitializedTensor, addInitializedTensor]
      at hfind ⊢
    rw [find?_nodes_map _ _ hrw] at hfind
    cases hg : g.nodes.find? (fun m => m.index = idx) with
    | none => rw [hg] at hfind; cases hfind
    | some m =>
      rw [hg] at hfind
      refine ⟨m, rfl, ?_⟩
      dsimp only [Option.map] at hfind
      cases hfind
      exact hrwT m
  | none =>
    unfold convBNFusedPre at hfind
    dsimp only [findNode, removeInitializedTensor, addInitializedTensor]
      at hfind ⊢
    rw [List.map_map] at hfind
    have hco : ∀ m : NodeModel α,
        (((fun m => if m.index ∈ (outputEdges g nextNode).map (fun e => e.1)
            then replaceInputDefs m (nextNode.outputDefs.getD 0 "")
              (node.outputDefs.getD 0 "")
            else m) ∘
          (fun m => if m.index = node.index
            then { m with inputDefs := m.inputDefs ++ [bnB.name] }
            else m)) m).index = m.index := by
      intro m
      simp only [Function.comp]
      rw [hrw, hpu]
    rw [find?_nodes_map _ _ hco] at hfind
    cases hg : g.nodes.find? (fun m => m.index = idx) with
    | none => rw [hg] at hfind; cases hfind
    | some m =>
      rw [hg] at hfind
      refine ⟨m, rfl, ?_⟩
      dsimp only [Option.map] at hfind
      cases hfind
      simp only [Function.comp]
      rw [hrwT, hpuT]

/-- The BN-fusion loop body, at a Conv node satisfying every
precondition of the source, performs exactly the fusion: it produces the
fused graph and schedules the BatchNormalization node for removal. -/
theorem convBN_step_fuses (sqrt : α → α) [Add α] [Sub α] [Mul α] [Div α]
    [Inhabited α] (g : GraphModel α) (node nextNode : NodeModel α)
    (bnScale bnB bnMean bnVar convW : TensorProto α)
    (convB? : Option (TensorProto α)) (epsilon : α) (removed : List Nat)
    (hfindc : findNode g node.index = some node)
    (hsup : IsSupportedOptypeVersionAndDomain node "Conv" 1 = true)
    (hedge : outputEdgesCount g node = 1)
    (hfirst : firstOutputNode g node = some nextNode)
    (hbnsup : IsSupportedOptypeVersionAndDomain nextNode
      "BatchNormalization" 7 = true)
    (hbnin : inputEdgesCount g nextNode = 1)
    (hbnout : isNodeOutputsInGraphOutputs g nextNode = false)
    (hgroup : attrFind node "group" = some (.aint 1))
    (heps : attrFind nextNode "epsilon" = some (.afloat epsilon))
    (hscale : getInitializedTensor g (nextNode.inputDefs.getD 1 "") =
      some bnScale)
    (hB : getInitializedTensor g (nextNode.inputDefs.getD 2 "") = some bnB)
    (hmean : getInitializedTensor g (nextNode.inputDefs.getD 3 "") =
      some bnMean)
    (hvar : getInitializedTensor g (nextNode.inputDefs.getD 4 "") =
      some bnVar)
    (hw : getInitializedTensor g (node.inputDefs.getD 1 "") = some convW)
    (hchecks : isSupportedDataType (some bnScale) = true ∧
      isSupportedDataType (some bnB) = true ∧
      isSupportedDataType (some bnMean) = true ∧
      isSupportedDataType (some bnVar) = true ∧
      isSupportedDataType (some convW) = true ∧
      bnScale.dims.length = 1 ∧ bnB.dims.length = 1 ∧
      bnMean.dims.length = 1 ∧ bnVar.dims.length = 1 ∧
      bnScale.dims.getD 0 0 = bnB.dims.getD 0 0 ∧
      bnB.dims.getD 0 0 = bnMean.dims.getD 0 0 ∧
      bnMean.dims.getD 0 0 = bnVar.dims.getD 0 0 ∧
      bnScale.dataType = bnB.dataType ∧
      bnB.dataType = bnMean.dataType ∧
      bnMean.dataType = bnVar.dataType ∧
      convW.dataType = bnScale.dataType ∧
      convW.dims.length > 2 ∧
      convW.dims.getD 0 0 = bnScale.dims.getD 0 0)
    (hbias : convBNBiasPrecond g node bnB convB?) :
    ConvBNFusion.step sqrt (g, removed) node.index =
      (convBNFusedPre sqrt g node nextNode bnScale bnB bnMean bnVar convW
        convB? epsilon,
       removed ++ [nextNode.index]) := by
  unfold ConvBNFusion.step
  dsimp only
  rw [hfindc]
  dsimp only
  rw [if_neg (not_not_intro ⟨hsup, hedge⟩), hfirst]
  dsimp only
  rw [if_neg (not_not_intro ⟨hbnsup, hbnin, hbnout⟩), hgroup]
  dsimp only
  rw [if_neg (by decide : ¬ ((decide ((1 : Int) ≠ 1)) = true)), heps]
  dsimp only
  rw [hscale, hB, hmean, hvar, hw]
  dsimp only
  rw [if_neg (not_not_intro hchecks)]
  cases convB? with
  | some convB =>
    obtain ⟨hlen3, hgetB, hck⟩ := hbias
    rw [if_pos hlen3, hgetB]
    dsimp only
    rw [if_neg (not_not_intro hck)]
    rfl
  | none =>
    obtain ⟨hlen, hnarg⟩ := hbias
    rw [if_neg hlen]
    rw [if_neg (not_not_intro hnarg)]
    rfl

/-- Claim C3: for a Conv node whose single consumer is a
BatchNormalization satisfying the fusion preconditions (the guards of
the source: matching supported 1-D scale/B/mean/var initializers, a
weight initializer with matching channel dimension, the group and
epsilon attributes, a bias initializer matching when present),
`ConvBNFusion::Apply` returns OK with the modified flag set and produces
exactly the fused graph: the weight is replaced by `W` scaled along the
output-channel axis by `s = scale / sqrt(var + epsilon)`, the bias
becomes `(b − mean) * s + B` when a bias was present and `B − mean * s`
otherwise, every consumer of the BN output is rewired to read the Conv
output, and the BatchNormalization node is removed.  The graph is
otherwise arbitrary: any number of other, non-Conv nodes surround the
match. -/
theorem convBNFusion_apply_fuses (sqrt : α → α) [Add α] [Sub α] [Mul α]
    [Div α] [Inhabited α] (g : GraphModel α) (node nextNode : NodeModel α)
    (bnScale bnB bnMean bnVar convW : TensorProto α)
    (convB? : Option (TensorProto α)) (epsilon : α)
    (l1 l2 : List (NodeModel α))
    (hsplit : g.nodes = l1 ++ node :: l2)
    (hnodup : (g.nodes.map (fun m => m.index)).Nodup)
    (honly : ∀ m ∈ g.nodes, m.index ≠ node.index → m.opType ≠ "Conv")
    (hsup : IsSupportedOptypeVersionAndDomain node "Conv" 1 = true)
    (hedge : outputEdgesCount g node = 1)
    (hfirst : firstOutputNode g node = some nextNode)
    (hbnsup : IsSupportedOptypeVersionAndDomain nextNode
      "BatchNormalization" 7 = true)
    (hbnin : inputEdgesCount g nextNode = 1)
    (hbnout : isNodeOutputsInGraphOutputs g nextNode = false)
    (hgroup : attrFind node "group" = some (.aint 1))
    (heps : attrFind nextNode "epsilon" = some (.afloat epsilon))
    (hscale : getInitializedTensor g (nextNode.inputDefs.getD 1 "") =
      some bnScale)
    (hB : getInitializedTensor g (nextNode.inputDefs.getD 2 "") = some bnB)
    (hmean : getInitializedTensor g (nextNode.inputDefs.getD 3 "") =
      some bnMean)
    (hvar : getInitializedTensor g (nextNode.inputDefs.getD 4 "") =
      some bnVar)
    (hw : getInitializedTensor g (node.inputDefs.getD 1 "") = some convW)
    (hchecks : isSupportedDataType (some bnScale) = true ∧
      isSupportedDataType (some bnB) = true ∧
      isSupportedDataType (some bnMean) = true ∧
      isSupportedDataType (some bnVar) = true ∧
      isSupportedDataType (some convW) = true ∧
      bnScale.dims.length = 1 ∧ bnB.dims.length = 1 ∧
      bnMean.dims.length = 1 ∧ bnVar.dims.length = 1 ∧
      bnScale.dims.getD 0 0 = bnB.dims.getD 0 0 ∧
      bnB.dims.getD 0 0 = bnMean.dims.getD 0 0 ∧
      bnMean.dims.getD 0 0 = bnVar.dims.getD 0 0 ∧
      bnScale.dataType = bnB.dataType ∧
      bnB.dataType = bnMean.dataType ∧
      bnMean.dataType = bnVar.dataType ∧
      convW.dataType = bnScale.dataType ∧
      convW.dims.length > 2 ∧
      convW.dims.getD 0 0 = bnScale.dims.getD 0 0)
    (hbias : convBNBiasPrecond g node bnB convB?) :
    ConvBNFusion.Apply sqrt g =
      (Status.OK,
       convBNFusedGraph sqrt g node nextNode bnScale bnB bnMean bnVar
         convW convB? epsilon,
       true) := by
  have hnd := hnodup
  rw [hsplit, List.map_append] at hnd
  have hdisj := (List.nodup_append.mp hnd).2.2
  have hmid := (List.nodup_append.mp hnd).2.1
  have hnode_notin_l1 : node.index ∉ l1.map (fun m => m.index) :=
    fun h => hdisj h (by simp)
  have hnode_notin_l2 : node.index ∉ l2.map (fun m => m.index) := by
    rw [List.map_cons] at hmid
    exact (List.nodup_cons.mp hmid).1
  have hfindc : findNode g node.index = some node := by
    unfold findNode
    rw [hsplit]
    apply find?_append_cons
    · intro x hx
      exact decide_eq_false
        (fun he => hnode_notin_l1 (he ▸ List.mem_map_of_mem _ hx))
    · simp
  have hother : ∀ idx, idx ≠ node.index →
      ∀ m, findNode g idx = some m → m.opType ≠ "Conv" := by
    intro idx hne m hm
    obtain ⟨hmem, hidx⟩ := findNode_facts g idx m hm
    exact honly m hmem (hidx ▸ hne)
  have hskip1 : ∀ idx ∈ l1.map (fun m => m.index),
      ∀ m, findNode g idx = some m → m.opType ≠ "Conv" := by
    intro idx hidx m hm
    exact hother idx (fun he => hnode_notin_l1 (he ▸ hidx)) m hm
  have hskip2 : ∀ idx ∈ l2.map (fun m => m.index),
      ∀ m', findNode (convBNFusedPre sqrt g node nextNode bnScale bnB
        bnMean bnVar convW convB? epsilon) idx = some m' →
      m'.opType ≠ "Conv" := by
    intro idx hidx m' hm'
    obtain ⟨m, hm, hT⟩ := convBNFusedPre_find sqrt g node nextNode bnScale
      bnB bnMean bnVar convW convB? epsilon idx m' hm'
    rw [hT]
    exact hother idx (fun he => hnode_notin_l2 (he ▸ hidx)) m hm
  unfold ConvBNFusion.Apply
  dsimp only
  rw [hsplit, List.map_append, List.map_cons, List.foldl_append,
    List.foldl_cons]
  rw [convBN_foldl_skip_nonconv sqrt g (l1.map (fun m => m.index)) hskip1 []]
  rw [convBN_step_fuses sqrt g node nextNode bnScale bnB bnMean bnVar
    convW convB? epsilon [] hfindc hsup hedge hfirst hbnsup hbnin hbnout
    hgroup heps hscale hB hmean hvar hw hchecks hbias]
  rw [convBN_foldl_skip_nonconv sqrt _ (l2.map (fun m => m.index)) hskip2
    ([] ++ [nextNode.index])]
  rfl

/-- Witness for C3 on the `Conv → BN → Relu` fixture (bias-less Conv,
identity square root over `Int`): every precondition is discharged by
computation and the fused graph is produced. -/
theorem convBNFusion_apply_fuses_witness :
    (c3Graph.nodes = [] ++ c3Conv :: [c3BN, c3Relu] ∧
     (c3Graph.nodes.map (fun m => m.index)).Nodup ∧
     (∀ m ∈ c3Graph.nodes, m.index ≠ c3Conv.index → m.opType ≠ "Conv") ∧
     IsSupportedOptypeVersionAndDomain c3Conv "Conv" 1 = true ∧
     outputEdgesCount c3Graph c3Conv = 1 ∧
     firstOutputNode c3Graph c3Conv = some c3BN ∧
     IsSupportedOptypeVersionAndDomain c3BN "BatchNormalization" 7 = true ∧
     inputEdgesCount c3Graph c3BN = 1 ∧
     isNodeOutputsInGraphOutputs c3Graph c3BN = false ∧
     attrFind c3Conv "group" = some (.aint 1) ∧
     attrFind c3BN "epsilon" = some (.afloat 2) ∧
     getInitializedTensor c3Graph (c3BN.inputDefs.getD 1 "") =
       some c3Scale ∧
     getInitializedTensor c3Graph (c3BN.inputDefs.getD 2 "") = some c3B ∧
     getInitializedTensor c3Graph (c3BN.inputDefs.getD 3 "") =
       some c3Mean ∧
     getInitializedTensor c3Graph (c3BN.inputDefs.getD 4 "") = some c3Var ∧
     getInitializedTensor c3Graph (c3Conv.inputDefs.getD 1 "") =
       some c3W ∧
     convBNBiasPrecond c3Graph c3Conv c3B none) ∧
    ConvBNFusion.Apply (fun x : Int => x) c3Graph =
      (Status.OK,
       convBNFusedGraph (fun x : Int => x) c3Graph c3Conv c3BN c3Scale c3B
         c3Mean c3Var c3W none 2,
       true) :=
  ⟨by decide,
   convBNFusion_apply_fuses (fun x : Int => x) c3Graph c3Conv c3BN c3Scale
     c3B c3Mean c3Var c3W none 2 [] [c3BN, c3Relu] rfl (by decide)
     (by decide) rfl rfl rfl rfl rfl rfl rfl rfl rfl rfl rfl rfl rfl
     (by decide) (by decide)⟩
